import Mathlib

/-!
# Verification of the image2video-overlay animation/scene core

This file gives a shallow embedding, in Lean 4, of the parts of the
image2video-overlay editor that its specification makes claims about:

* the pure animation state function (`src/utils/animation.ts`),
* the train-progress folding used by the live preview hook and the
  offline compositor (`useAnimation.ts`, `useRecording.ts`),
* the connection resolver and snap-candidate enumeration
  (`src/utils/connections.ts`),
* the element/scene data model and the store mutations
  (`src/types.ts`, `src/store/useStore.ts`, in both observed variants),
* the recording canvas sizing (`useRecording.ts`).

Numbers that are IEEE doubles in the source are modelled as rationals
(`ℚ`); every decimal literal appearing in the source is exactly
representable, so all arithmetic in the modelled fragments is exact.
JavaScript `x % y` for `x ≥ 0, y > 0` coincides with `x - y * ⌊x / y⌋`,
which is how the two `%` uses (both on non-negative operands) are
rendered.  Purely visual styling fields that no modelled operation reads
(colors, stroke widths, font sizes, the animation slot carried on
elements) are not carried in the element structures.
-/

/-- Animation kinds (`AnimationType` in `src/types.ts`): eight transform
kinds followed by the three line/path kinds. -/
inductive AnimationType
  | animPulse
  | animBounce
  | animFade
  | animShake
  | animFlash
  | animSpin
  | animZoom
  | animFloat
  | animTrain
  | animTrainLoop
  | animDash
deriving DecidableEq, Repr

/-- Animation state values for a given progress point
(`AnimationState` in `src/utils/animation.ts`). -/
structure AnimationState where
  scale : ℚ
  opacity : ℚ
  translateX : ℚ
  translateY : ℚ
  rotation : ℚ
deriving DecidableEq, Repr

/-- Easing function for smooth animations (`easeInOut` in
`src/utils/animation.ts`):
`t < 0.5 ? 2 * t * t : 1 - Math.pow(-2 * t + 2, 2) / 2`. -/
def easeInOut (t : ℚ) : ℚ :=
  if t < 0.5 then 2 * t * t else 1 - (-2 * t + 2) ^ 2 / 2

/-- `getAnimationState` from `src/utils/animation.ts`: the single source
of truth for all animations.  `(x) % 1` on the non-negative arguments
`progress * 3` and `progress * 2` is rendered as `Int.fract`. -/
def getAnimationState (animationType : AnimationType) (progress : ℚ)
    (baseOpacity : ℚ) : AnimationState :=
  let state : AnimationState :=
    { scale := 1, opacity := baseOpacity, translateX := 0, translateY := 0,
      rotation := 0 }
  let opacityRange := baseOpacity * 0.4
  let minOpacity := max 0.05 (baseOpacity - opacityRange)
  let maxOpacity := min 1 (baseOpacity + opacityRange)
  match animationType with
  | .animPulse =>
    if progress < 0.5 then
      let t := easeInOut (progress * 2)
      { state with scale := 1 + 0.1 * t,
                   opacity := baseOpacity + (maxOpacity - baseOpacity) * t }
    else
      let t := easeInOut ((progress - 0.5) * 2)
      { state with scale := 1.1 - 0.1 * t,
                   opacity := maxOpacity - (maxOpacity - baseOpacity) * t }
  | .animBounce =>
    if progress < 0.5 then
      { state with translateY := -15 * easeInOut (progress * 2) }
    else
      { state with translateY := -15 * (1 - easeInOut ((progress - 0.5) * 2)) }
  | .animFade =>
    if progress < 0.5 then
      { state with opacity := minOpacity + (maxOpacity - minOpacity) * (progress * 2) }
    else
      { state with opacity := maxOpacity - (maxOpacity - minOpacity) * ((progress - 0.5) * 2) }
  | .animShake =>
    let shakeProgress := Int.fract (progress * 3)
    if shakeProgress < 0.25 then
      { state with translateX := -5 * (shakeProgress / 0.25) }
    else if shakeProgress < 0.5 then
      { state with translateX := -5 + 10 * ((shakeProgress - 0.25) / 0.25) }
    else if shakeProgress < 0.75 then
      { state with translateX := 5 - 10 * ((shakeProgress - 0.5) / 0.25) }
    else
      { state with translateX := -5 + 5 * ((shakeProgress - 0.75) / 0.25) }
  | .animFlash =>
    let flashProgress := Int.fract (progress * 2)
    if flashProgress < 0.5 then
      { state with opacity := maxOpacity - (maxOpacity - minOpacity) * (flashProgress * 2) }
    else
      { state with opacity := minOpacity + (maxOpacity - minOpacity) * ((flashProgress - 0.5) * 2) }
  | .animSpin => { state with rotation := 360 * progress }
  | .animZoom =>
    if progress < 0.5 then
      { state with scale := 0.9 + 0.3 * easeInOut (progress * 2) }
    else
      { state with scale := 1.2 - 0.3 * easeInOut ((progress - 0.5) * 2) }
  | .animFloat =>
    if progress < 0.33 then
      let t := easeInOut (progress / 0.33)
      { state with translateX := 5 * t, translateY := -10 * t }
    else if progress < 0.66 then
      let t := easeInOut ((progress - 0.33) / 0.33)
      { state with translateX := 5 - 10 * t, translateY := -10 + 15 * t }
    else
      let t := easeInOut ((progress - 0.66) / 0.34)
      { state with translateX := -5 + 5 * t, translateY := 5 - 5 * t }
  | .animTrain => state
  | .animTrainLoop => state
  | .animDash => state

/-- `isLineAnimation` from `src/utils/animation.ts`. -/
def isLineAnimation (animType : AnimationType) : Bool :=
  animType == .animTrain || animType == .animTrainLoop || animType == .animDash

/-- C1, counterexample: the zoom animation does not start (or end) at the
rest state.  `getAnimationState("anim-zoom", 0, 0.4)` has scale exactly
`0.9`, a deviation of `1/10` from the rest scale `1` (a third of zoom's
whole `0.9 → 1.2` scale range), while every other transform kind returns
scale exactly `1` at progress `0`. -/
theorem anim_zoom_loop_state_not_rest :
    (getAnimationState .animZoom 0 (2/5)).scale = 9/10 ∧ ((9:ℚ)/10 ≠ 1) := by
  constructor
  · norm_num [getAnimationState, easeInOut]
  · norm_num

set_option maxHeartbeats 1600000 in
/-- C1 (amended).  Every transform animation kind is a closed loop over
`[0,1)`: writing `s₀` for the state at progress `0` and `s_p` for the
state at progress `p`, each transform field of `s_p` is within
`120 * (1 - p)` of the corresponding field of `s₀` for all `p` in
`(23/24, 1)` — hence the left limit at `1` equals the value at `0` —
and the loop state `s₀` has `translateX = translateY = 0`, rotation `0`
for non-spin kinds, and scale `1` for every kind except zoom, whose
loop state has scale `9/10`. -/
theorem getAnimationState_closed_loop (k : AnimationType) (β p : ℚ)
    (hk : isLineAnimation k = false) (hβ0 : 0 ≤ β) (hβ1 : β ≤ 1)
    (hp1 : 23/24 < p) (hp2 : p < 1) :
    (|(getAnimationState k p β).scale - (getAnimationState k 0 β).scale| ≤ 120 * (1 - p) ∧
     |(getAnimationState k p β).translateX - (getAnimationState k 0 β).translateX| ≤ 120 * (1 - p) ∧
     |(getAnimationState k p β).translateY - (getAnimationState k 0 β).translateY| ≤ 120 * (1 - p) ∧
     (k ≠ .animSpin →
       |(getAnimationState k p β).rotation - (getAnimationState k 0 β).rotation| ≤ 120 * (1 - p))) ∧
    ((getAnimationState k 0 β).translateX = 0 ∧ (getAnimationState k 0 β).translateY = 0) ∧
    (k ≠ .animSpin → (getAnimationState k 0 β).rotation = 0) ∧
    (k ≠ .animZoom → (getAnimationState k 0 β).scale = 1) ∧
    (k = .animZoom → (getAnimationState k 0 β).scale = 9/10) := by
  have hp0 : (0:ℚ) < 1 - p := by linarith
  have hp24 : 1 - p < 1/24 := by linarith
  cases k
  case animTrain => exact absurd hk (by decide)
  case animTrainLoop => exact absurd hk (by decide)
  case animDash => exact absurd hk (by decide)
  case animPulse =>
    have h05 : ¬ (p < (1/2:ℚ)) := by push_neg; linarith
    have hease : ¬ ((p - 1/2) * 2 < (1/2:ℚ)) := by push_neg; linarith
    refine ⟨⟨?_, ?_, ?_, ?_⟩, ⟨?_, ?_⟩, ?_, ?_, ?_⟩
    · norm_num [getAnimationState, easeInOut, h05, hease, abs_le]
      constructor <;> nlinarith
    · norm_num [getAnimationState, easeInOut, h05, hease]
      linarith
    · norm_num [getAnimationState, easeInOut, h05, hease]
      linarith
    · intro _
      norm_num [getAnimationState, easeInOut, h05, hease]
      linarith
    · norm_num [getAnimationState, easeInOut]
    · norm_num [getAnimationState, easeInOut]
    · intro _
      norm_num [getAnimationState, easeInOut]
    · intro _
      norm_num [getAnimationState, easeInOut]
    · intro h
      exact absurd h (by decide)
  case animBounce =>
    have h05 : ¬ (p < (1/2:ℚ)) := by push_neg; linarith
    have hease : ¬ ((p - 1/2) * 2 < (1/2:ℚ)) := by push_neg; linarith
    refine ⟨⟨?_, ?_, ?_, ?_⟩, ⟨?_, ?_⟩, ?_, ?_, ?_⟩
    · norm_num [getAnimationState, easeInOut, h05, hease]
      linarith
    · norm_num [getAnimationState, easeInOut, h05, hease]
      linarith
    · norm_num [getAnimationState, easeInOut, h05, hease, abs_le]
      constructor <;> nlinarith
    · intro _
      norm_num [getAnimationState, easeInOut, h05, hease]
      linarith
    · norm_num [getAnimationState, easeInOut]
    · norm_num [getAnimationState, easeInOut]
    · intro _
      norm_num [getAnimationState, easeInOut]
    · intro _
      norm_num [getAnimationState, easeInOut]
    · intro h
      exact absurd h (by decide)
  case animFade =>
    have h05 : ¬ (p < (1/2:ℚ)) := by push_neg; linarith
    refine ⟨⟨?_, ?_, ?_, ?_⟩, ⟨?_, ?_⟩, ?_, ?_, ?_⟩
    · norm_num [getAnimationState, easeInOut, h05]
      linarith
    · norm_num [getAnimationState, easeInOut, h05]
      linarith
    · norm_num [getAnimationState, easeInOut, h05]
      linarith
    · intro _
      norm_num [getAnimationState, easeInOut, h05]
      linarith
    · norm_num [getAnimationState, easeInOut]
    · norm_num [getAnimationState, easeInOut]
    · intro _
      norm_num [getAnimationState, easeInOut]
    · intro _
      norm_num [getAnimationState, easeInOut]
    · intro h
      exact absurd h (by decide)
  case animShake =>
    have hfl : ⌊p * 3⌋ = (2:ℤ) := by
      rw [Int.floor_eq_iff]
      push_cast
      constructor <;> nlinarith
    have hf : Int.fract (p * 3) = p * 3 - 2 := by
      rw [← Int.self_sub_floor, hfl]
      push_cast
      ring
    have h1 : ¬ (p * 3 - 2 < (1/4:ℚ)) := by push_neg; nlinarith
    have h2 : ¬ (p * 3 - 2 < (1/2:ℚ)) := by push_neg; nlinarith
    have h3 : ¬ (p * 3 - 2 < (3/4:ℚ)) := by push_neg; nlinarith
    refine ⟨⟨?_, ?_, ?_, ?_⟩, ⟨?_, ?_⟩, ?_, ?_, ?_⟩
    · norm_num [getAnimationState, easeInOut, hf, h1, h2, h3]
      linarith
    · norm_num [getAnimationState, easeInOut, hf, h1, h2, h3, abs_le]
      constructor <;> nlinarith
    · norm_num [getAnimationState, easeInOut, hf, h1, h2, h3]
      linarith
    · intro _
      norm_num [getAnimationState, easeInOut, hf, h1, h2, h3]
      linarith
    · norm_num [getAnimationState, easeInOut]
    · norm_num [getAnimationState, easeInOut]
    · intro _
      norm_num [getAnimationState, easeInOut]
    · intro _
      norm_num [getAnimationState, easeInOut]
    · intro h
      exact absurd h (by decide)
  case animFlash =>
    have hfl : ⌊p * 2⌋ = (1:ℤ) := by
      rw [Int.floor_eq_iff]
      push_cast
      constructor <;> nlinarith
    have hf : Int.fract (p * 2) = p * 2 - 1 := by
      rw [← Int.self_sub_floor, hfl]
      push_cast
      ring
    have h1 : ¬ (p * 2 - 1 < (1/2:ℚ)) := by push_neg; nlinarith
    refine ⟨⟨?_, ?_, ?_, ?_⟩, ⟨?_, ?_⟩, ?_, ?_, ?_⟩
    · norm_num [getAnimationState, easeInOut, hf, h1]
      linarith
    · norm_num [getAnimationState, easeInOut, hf, h1]
      linarith
    · norm_num [getAnimationState, easeInOut, hf, h1]
      linarith
    · intro _
      norm_num [getAnimationState, easeInOut, hf, h1]
      linarith
    · norm_num [getAnimationState, easeInOut]
    · norm_num [getAnimationState, easeInOut]
    · intro _
      norm_num [getAnimationState, easeInOut]
    · intro _
      norm_num [getAnimationState, easeInOut]
    · intro h
      exact absurd h (by decide)
  case animSpin =>
    refine ⟨⟨?_, ?_, ?_, ?_⟩, ⟨?_, ?_⟩, ?_, ?_, ?_⟩
    · norm_num [getAnimationState, easeInOut]
      linarith
    · norm_num [getAnimationState, easeInOut]
      linarith
    · norm_num [getAnimationState, easeInOut]
      linarith
    · intro h
      exact absurd rfl h
    · norm_num [getAnimationState, easeInOut]
    · norm_num [getAnimationState, easeInOut]
    · intro h
      exact absurd rfl h
    · intro _
      norm_num [getAnimationState, easeInOut]
    · intro h
      exact absurd h (by decide)
  case animZoom =>
    have h05 : ¬ (p < (1/2:ℚ)) := by push_neg; linarith
    have hease : ¬ ((p - 1/2) * 2 < (1/2:ℚ)) := by push_neg; linarith
    refine ⟨⟨?_, ?_, ?_, ?_⟩, ⟨?_, ?_⟩, ?_, ?_, ?_⟩
    · norm_num [getAnimationState, easeInOut, h05, hease, abs_le]
      constructor <;> nlinarith
    · norm_num [getAnimationState, easeInOut, h05, hease]
      linarith
    · norm_num [getAnimationState, easeInOut, h05, hease]
      linarith
    · intro _
      norm_num [getAnimationState, easeInOut, h05, hease]
      linarith
    · norm_num [getAnimationState, easeInOut]
    · norm_num [getAnimationState, easeInOut]
    · intro _
      norm_num [getAnimationState, easeInOut]
    · intro h
      exact absurd rfl h
    · intro _
      norm_num [getAnimationState, easeInOut]
  case animFloat =>
    have h33 : ¬ (p < (33/100:ℚ)) := by push_neg; linarith
    have h66 : ¬ (p < (33/50:ℚ)) := by push_neg; linarith
    have hease : ¬ ((p - 33/50) / (17/50) < (1/2:ℚ)) := by
      push_neg
      rw [le_div_iff₀ (by norm_num)]
      linarith
    refine ⟨⟨?_, ?_, ?_, ?_⟩, ⟨?_, ?_⟩, ?_, ?_, ?_⟩
    · norm_num [getAnimationState, easeInOut, h33, h66, hease]
      linarith
    · norm_num [getAnimationState, easeInOut, h33, h66, hease, abs_le]
      constructor <;> nlinarith
    · norm_num [getAnimationState, easeInOut, h33, h66, hease, abs_le]
      constructor <;> nlinarith
    · intro _
      norm_num [getAnimationState, easeInOut, h33, h66, hease]
      linarith
    · norm_num [getAnimationState, easeInOut]
    · norm_num [getAnimationState, easeInOut]
    · intro _
      norm_num [getAnimationState, easeInOut]
    · intro _
      norm_num [getAnimationState, easeInOut]
    · intro h
      exact absurd h (by decide)

/-- C1 witness: the amended closed-loop theorem instantiated at the
bounce kind, `β = 1/2`, `p = 47/48`. -/
theorem getAnimationState_closed_loop_witness :
    |(getAnimationState .animBounce (47/48) (1/2)).translateY -
      (getAnimationState .animBounce 0 (1/2)).translateY| ≤ 120 * (1 - 47/48) :=
  (getAnimationState_closed_loop .animBounce (1/2) (47/48) (by decide)
    (by norm_num) (by norm_num) (by norm_num) (by norm_num)).1.2.2.1

/-- JavaScript `x % y` for non-negative `x` and positive `y` (both uses
below have a non-negative elapsed time and a positive duration). -/
def jsMod (x y : ℚ) : ℚ := x - y * ⌊x / y⌋

/-- The progress computation of `useTrainAnimation`
(`src/hooks/useAnimation.ts`): `(elapsed % duration) / duration`, then
for `anim-train-loop` the back-and-forth fold
`newProgress < 0.5 ? newProgress * 2 : 2 - newProgress * 2`. -/
def useTrainAnimationProgress (animationType : AnimationType)
    (elapsed duration : ℚ) : ℚ :=
  let newProgress := jsMod elapsed duration / duration
  if animationType = .animTrainLoop then
    if newProgress < 0.5 then newProgress * 2 else 2 - newProgress * 2
  else newProgress

/-- The same computation re-implemented by the offline compositor's
`renderFrame` (`src/hooks/useRecording.ts`, train branch):
`(elapsedTime % animDuration) / animDuration`, then for
`anim-train-loop` the fold `progress < 0.5 ? progress * 2 : 2 - progress * 2`. -/
def renderFrameTrainProgress (animationType : AnimationType)
    (elapsedTime animDuration : ℚ) : ℚ :=
  let progress := jsMod elapsedTime animDuration / animDuration
  if animationType = .animTrainLoop then
    if progress < 0.5 then progress * 2 else 2 - progress * 2
  else progress

/-- C6.  The looping-train displayed progress is the raw cyclic progress
`(elapsed mod duration)/duration` folded (`raw < 0.5 ↦ 2·raw`,
`raw ≥ 0.5 ↦ 2 − 2·raw`); the live preview hook and the offline
compositor compute the identical folding; and with duration 2000 ms,
elapsed 500 ms (raw `1/4`) and elapsed 1500 ms (raw `3/4`) both fold to
progress `1/2`. -/
theorem trainLoop_fold_agrees :
    (∀ (ty : AnimationType) (e d : ℚ),
      useTrainAnimationProgress ty e d = renderFrameTrainProgress ty e d) ∧
    (∀ e d : ℚ,
      (jsMod e d / d < 0.5 →
        useTrainAnimationProgress .animTrainLoop e d = jsMod e d / d * 2) ∧
      (¬ jsMod e d / d < 0.5 →
        useTrainAnimationProgress .animTrainLoop e d = 2 - jsMod e d / d * 2)) ∧
    jsMod 500 2000 / 2000 = (1/4 : ℚ) ∧
    jsMod 1500 2000 / 2000 = (3/4 : ℚ) ∧
    useTrainAnimationProgress .animTrainLoop 500 2000 = 1/2 ∧
    useTrainAnimationProgress .animTrainLoop 1500 2000 = 1/2 ∧
    renderFrameTrainProgress .animTrainLoop 500 2000 = 1/2 ∧
    renderFrameTrainProgress .animTrainLoop 1500 2000 = 1/2 := by
  have h500 : jsMod 500 2000 = (500:ℚ) := by
    rw [jsMod]
    norm_num [Int.floor_eq_iff]
  have h1500 : jsMod 1500 2000 = (1500:ℚ) := by
    rw [jsMod]
    norm_num [Int.floor_eq_iff]
  refine ⟨fun ty e d => rfl, fun e d => ⟨fun hlt => ?_, fun hge => ?_⟩,
    ?_, ?_, ?_, ?_, ?_, ?_⟩
  · simp [useTrainAnimationProgress, hlt]
  · simp [useTrainAnimationProgress, hge]
  · rw [h500]; norm_num
  · rw [h1500]; norm_num
  · norm_num [useTrainAnimationProgress, h500]
  · norm_num [useTrainAnimationProgress, h1500]
  · norm_num [renderFrameTrainProgress, h500]
  · norm_num [renderFrameTrainProgress, h1500]

/-- C6 witness: the fold clause of `trainLoop_fold_agrees` applied at
elapsed 500 ms, duration 2000 ms, with the guard `raw < 1/2` discharged
concretely. -/
theorem trainLoop_fold_agrees_witness :
    useTrainAnimationProgress .animTrainLoop 500 2000 = jsMod 500 2000 / 2000 * 2 :=
  (trainLoop_fold_agrees.2.1 500 2000).1 (by
    rw [jsMod]
    norm_num [Int.floor_eq_iff])

/-- `getCanvasSize` from `src/hooks/useRecording.ts`: with a background
image of pixel size `w × h`, each dimension is rounded up to the next
even integer (`Math.ceil(d / 2) * 2`, which for a natural number `d` is
`((d + 1) / 2) * 2` in integer arithmetic); without a background image
the canvas defaults to 1920 × 1080. -/
def getCanvasSize (backgroundImage : Option (ℕ × ℕ)) : ℕ × ℕ :=
  match backgroundImage with
  | some (w, h) => (((w + 1) / 2) * 2, ((h + 1) / 2) * 2)
  | none => (1920, 1080)

/-- C7.  For a background image with positive pixel dimensions, the
recording canvas dimensions are both even and each is within one pixel
of (and not less than) the original; without a background image the
canvas is 1920 × 1080. -/
theorem getCanvasSize_even_within_one (w h : ℕ) (hw : 0 < w) (hh : 0 < h) :
    2 ∣ (getCanvasSize (some (w, h))).1 ∧ 2 ∣ (getCanvasSize (some (w, h))).2 ∧
    w ≤ (getCanvasSize (some (w, h))).1 ∧ (getCanvasSize (some (w, h))).1 ≤ w + 1 ∧
    h ≤ (getCanvasSize (some (w, h))).2 ∧ (getCanvasSize (some (w, h))).2 ≤ h + 1 ∧
    getCanvasSize none = (1920, 1080) := by
  simp only [getCanvasSize]
  refine ⟨?_, ?_, ?_, ?_, ?_, ?_, trivial⟩ <;> omega

/-- C7 witness: a 1919 × 1080 background image yields a 1920 × 1080
canvas. -/
theorem getCanvasSize_even_within_one_witness :
    2 ∣ (getCanvasSize (some (1919, 1080))).1 ∧
    (getCanvasSize (some (1919, 1080))).1 ≤ 1919 + 1 ∧
    getCanvasSize none = (1920, 1080) := by
  have h := getCanvasSize_even_within_one 1919 1080 (by decide) (by decide)
  exact ⟨h.1, h.2.2.2.1, h.2.2.2.2.2.2⟩

/-- A position in percentage-of-container units (`Position` in
`src/types.ts`). -/
structure Position where
  x : ℚ
  y : ℚ
deriving DecidableEq, Repr

/-- Element identifiers.  The source creates every id with a template
string `` `${family}-${counter}` `` (`"rectangle-12"`, `"point-3"`,
`"overlay-1"`, …); since each family tag is dash-free and the suffix is
the decimal counter, such a string carries exactly its family tag and
counter, which is the representation used here. -/
structure ElemId where
  family : String
  counter : ℕ
deriving DecidableEq, Repr

/-- The id rendered back as the source's template string. -/
def ElemId.str (i : ElemId) : String :=
  i.family ++ "-" ++ toString i.counter

/-- Which endpoint of a line a connection reference selects
(the `"start" | "end"` field of `ConnectionRef`). -/
inductive WhichEnd
  | start
  | «end»
deriving DecidableEq, Repr

/-- `ConnectionRef` from `src/types.ts`: `elementId`, optional
`vertexIndex` (for polygons), optional `endpoint` (for lines). -/
structure ConnectionRef where
  elementId : ElemId
  vertexIndex : Option ℤ
  endpoint : Option WhichEnd
deriving DecidableEq, Repr

/-- `LineEndpoint = Position | ConnectionRef` from `src/types.ts`. -/
inductive LineEndpoint
  | pos (p : Position)
  | ref (r : ConnectionRef)
deriving DecidableEq, Repr

/-- Type guard `isConnectionRef` from `src/types.ts`. -/
def isConnectionRef : LineEndpoint → Bool
  | .pos _ => false
  | .ref _ => true

/-- `PointOverlay` (structural fields read by the modelled operations). -/
structure PointOverlay where
  id : ElemId
  position : Position
  label : String
deriving DecidableEq, Repr

/-- `LineOverlay` (structural fields read by the modelled operations). -/
structure LineOverlay where
  id : ElemId
  startPoint : LineEndpoint
  endPoint : LineEndpoint
deriving DecidableEq, Repr

/-- `PolygonOverlay` (structural fields read by the modelled operations). -/
structure PolygonOverlay where
  id : ElemId
  points : List Position
  closed : Bool
  fillEnabled : Bool
deriving DecidableEq, Repr

/-- `RectangleOverlay` (only its identity matters to the modelled
operations). -/
structure RectangleOverlay where
  id : ElemId
deriving DecidableEq, Repr

/-- `CanvasElement` from `src/types.ts`: the four overlay variants
(`type: "overlay"`) and the two component variants
(`type: "component"`). -/
inductive CanvasElement
  | rectangle (r : RectangleOverlay)
  | point (p : PointOverlay)
  | line (l : LineOverlay)
  | polygon (pg : PolygonOverlay)
  | image (id : ElemId)
  | drawing (id : ElemId)
deriving DecidableEq, Repr

/-- The shared `id` field. -/
def CanvasElement.id : CanvasElement → ElemId
  | .rectangle r => r.id
  | .point p => p.id
  | .line l => l.id
  | .polygon pg => pg.id
  | .image i => i
  | .drawing i => i

/-- Type guard `isOverlay` (`element.type === "overlay"`). -/
def isOverlay : CanvasElement → Bool
  | .rectangle _ => true
  | .point _ => true
  | .line _ => true
  | .polygon _ => true
  | .image _ => false
  | .drawing _ => false

/-- Type guard `isRectangleOverlay`. -/
def isRectangleOverlay : CanvasElement → Bool
  | .rectangle _ => true
  | _ => false

/-- Type guard `isPointOverlay`. -/
def isPointOverlay : CanvasElement → Bool
  | .point _ => true
  | _ => false

/-- Type guard `isLineOverlay`. -/
def isLineOverlay : CanvasElement → Bool
  | .line _ => true
  | _ => false

/-- Type guard `isPolygonOverlay`. -/
def isPolygonOverlay : CanvasElement → Bool
  | .polygon _ => true
  | _ => false

/-- `resolveEndpoint` from `src/utils/connections.ts`.  The source
function recurses with no depth bound; since that recursion does not
terminate on cyclic references, the embedding is fuel-indexed: `none`
means the recursion is still running after `fuel` call frames, and
`some r` means the source function returns `r` (`r = none` is the
source's `null`, "unresolved").  Every fuel step corresponds exactly to
one call frame of the source function. -/
def resolveEndpoint : ℕ → LineEndpoint → List CanvasElement → Option (Option Position)
  | 0, _, _ => none
  | fuel + 1, endpoint, elements =>
    match endpoint with
    | .pos p => some (some p)
    | .ref r =>
      match elements.find? (fun el => el.id == r.elementId) with
      | none => some none
      | some connectedElement =>
        match connectedElement with
        | .point p => some (some p.position)
        | .line l =>
          let lineEndpoint :=
            match r.endpoint with
            | some .start => l.startPoint
            | _ => l.endPoint
          resolveEndpoint fuel lineEndpoint elements
        | .polygon pg =>
          let vertexIndex := r.vertexIndex.getD 0
          if 0 ≤ vertexIndex ∧ vertexIndex < pg.points.length then
            some pg.points[vertexIndex.toNat]?
          else
            some none
        | _ => some none

/-- A self-referential line: its own start point is a connection
reference to its own start point.  `resolveEndpoint` recurses on this
input forever. -/
def cyclicRef : ConnectionRef := ⟨⟨"line", 2⟩, none, some .start⟩

/-- The line carrying `cyclicRef` as its start point. -/
def cyclicLine : LineOverlay := ⟨⟨"line", 2⟩, .ref cyclicRef, .pos ⟨10, 10⟩⟩

/-- The scene containing only the self-referential line. -/
def cyclicScene : List CanvasElement := [.line cyclicLine]

/-- C3.  `resolveEndpoint` does **not** bound its recursion depth: on the
self-referential scene `cyclicScene`, no amount of fuel makes the
resolution terminate — each call frame recurses into an identical call,
so the source function loops forever (a stack overflow in practice). -/
theorem resolveEndpoint_cycle_diverges (fuel : ℕ) :
    resolveEndpoint fuel (.ref cyclicRef) cyclicScene = none := by
  induction fuel with
  | zero => rfl
  | succ n ih =>
    simpa [resolveEndpoint, cyclicScene, cyclicLine, cyclicRef] using ih

/-- C4.  `resolveEndpoint` satisfies its full contract case analysis, for
every endpoint, element collection and fuel: an absolute position is
returned unchanged; a reference whose target id is absent yields
unresolved (`null`); a reference to a point yields that point's
position; a reference to a line recurses into that line's referenced
endpoint (`start` selects `startPoint`, anything else `endPoint`); a
reference to a polygon yields the vertex at `vertexIndex` when in range
and unresolved otherwise; a reference to any other element kind yields
unresolved. -/
theorem resolveEndpoint_cases (fuel : ℕ) (endpoint : LineEndpoint)
    (elements : List CanvasElement) :
    (∀ p, endpoint = .pos p →
      resolveEndpoint (fuel + 1) endpoint elements = some (some p)) ∧
    (∀ r, endpoint = .ref r →
      elements.find? (fun el => el.id == r.elementId) = none →
      resolveEndpoint (fuel + 1) endpoint elements = some none) ∧
    (∀ r pt, endpoint = .ref r →
      elements.find? (fun el => el.id == r.elementId) = some (.point pt) →
      resolveEndpoint (fuel + 1) endpoint elements = some (some pt.position)) ∧
    (∀ r l, endpoint = .ref r →
      elements.find? (fun el => el.id == r.elementId) = some (.line l) →
      resolveEndpoint (fuel + 1) endpoint elements =
        resolveEndpoint fuel
          (match r.endpoint with
           | some .start => l.startPoint
           | _ => l.endPoint) elements) ∧
    (∀ r pg, endpoint = .ref r →
      elements.find? (fun el => el.id == r.elementId) = some (.polygon pg) →
      ((0 ≤ r.vertexIndex.getD 0 ∧ r.vertexIndex.getD 0 < pg.points.length →
        resolveEndpoint (fuel + 1) endpoint elements =
          some pg.points[(r.vertexIndex.getD 0).toNat]? ∧
        pg.points[(r.vertexIndex.getD 0).toNat]?.isSome = true) ∧
       (¬ (0 ≤ r.vertexIndex.getD 0 ∧ r.vertexIndex.getD 0 < pg.points.length) →
        resolveEndpoint (fuel + 1) endpoint elements = some none))) ∧
    (∀ r el, endpoint = .ref r →
      elements.find? (fun el2 => el2.id == r.elementId) = some el →
      isPointOverlay el = false → isLineOverlay el = false →
      isPolygonOverlay el = false →
      resolveEndpoint (fuel + 1) endpoint elements = some none) := by
  refine ⟨?_, ?_, ?_, ?_, ?_, ?_⟩
  · rintro p rfl
    simp [resolveEndpoint]
  · rintro r rfl hfind
    simp [resolveEndpoint, hfind]
  · rintro r pt rfl hfind
    simp [resolveEndpoint, hfind]
  · rintro r l rfl hfind
    simp [resolveEndpoint, hfind]
  · rintro r pg rfl hfind
    constructor
    · intro hrange
      have hlt : (r.vertexIndex.getD 0).toNat < pg.points.length := by omega
      refine ⟨?_, ?_⟩
      · simp [resolveEndpoint, hfind, hrange]
      · simp [List.getElem?_eq_getElem hlt]
    · intro hrange
      simp [resolveEndpoint, hfind, hrange]
  · rintro r el rfl hfind hp hl hpg
    cases el <;> simp_all [resolveEndpoint, isPointOverlay, isLineOverlay, isPolygonOverlay]

/-- A concrete point overlay for witnesses. -/
def demoPoint : PointOverlay := ⟨⟨"point", 3⟩, ⟨50, 50⟩, "P3"⟩

/-- A one-element scene containing `demoPoint`. -/
def demoScene : List CanvasElement := [.point demoPoint]

/-- C4 witness: the point case of `resolveEndpoint_cases` instantiated on
`demoScene` — a reference to `point-3` resolves to its position. -/
theorem resolveEndpoint_cases_witness :
    resolveEndpoint 1 (.ref ⟨⟨"point", 3⟩, none, none⟩) demoScene =
      some (some ⟨50, 50⟩) := by
  have h := (resolveEndpoint_cases 0 (.ref ⟨⟨"point", 3⟩, none, none⟩)
    demoScene).2.2.1 ⟨⟨"point", 3⟩, none, none⟩ demoPoint rfl
    (by simp [demoScene, demoPoint, CanvasElement.id])
  simpa [demoPoint] using h

/-- `getPointPosition` from `src/hooks/useRecording.ts`:
`resolveEndpoint(pointRef, elements) ?? { x: 50, y: 50 }`. -/
def getPointPosition (fuel : ℕ) (pointRef : LineEndpoint)
    (elements : List CanvasElement) : Position :=
  match resolveEndpoint fuel pointRef elements with
  | some (some p) => p
  | _ => ⟨50, 50⟩

/-- The endpoint resolution in `src/components/LineElement.tsx`
(`startPos`/`endPos`):
`resolveEndpoint(element.startPoint, elements) ?? { x: 50, y: 50 }`. -/
def lineElementResolvedPos (fuel : ℕ) (endpoint : LineEndpoint)
    (elements : List CanvasElement) : Position :=
  match resolveEndpoint fuel endpoint elements with
  | some (some p) => p
  | _ => ⟨50, 50⟩

/-- The offline compositor's line drawing (`renderFrame`, case `"line"`
in `src/hooks/useRecording.ts`): the endpoints of the drawn main-line
segment.  The `Option` codomain records whether a segment is drawn at
all; the source draws unconditionally via `getPointPosition`, so the
result is always `some`. -/
def renderFrameLineSegment (fuel : ℕ) (l : LineOverlay)
    (elements : List CanvasElement) : Option (Position × Position) :=
  some (getPointPosition fuel l.startPoint elements,
        getPointPosition fuel l.endPoint elements)

/-- `ConnectablePoint` from `src/utils/connections.ts`. -/
structure ConnectablePoint where
  position : Position
  connectionRef : ConnectionRef
  label : String
deriving DecidableEq, Repr

/-- One loop iteration of `findConnectablePoints`
(`src/utils/connections.ts`): the snap candidates contributed by a
single element.  A line endpoint is pushed only when it resolves
(`if (startPos)` / `if (endPos)`); `label || id` is the label when
non-empty, else the id string. -/
def connectablePointsFor (fuel : ℕ) (element : CanvasElement)
    (elements : List CanvasElement) : List ConnectablePoint :=
  match element with
  | .point p =>
    [⟨p.position, ⟨p.id, none, none⟩, if p.label = "" then p.id.str else p.label⟩]
  | .line l =>
    (match resolveEndpoint fuel l.startPoint elements with
     | some (some startPos) =>
       [⟨startPos, ⟨l.id, none, some .start⟩, l.id.str ++ " (start)"⟩]
     | _ => []) ++
    (match resolveEndpoint fuel l.endPoint elements with
     | some (some endPos) =>
       [⟨endPos, ⟨l.id, none, some .«end»⟩, l.id.str ++ " (end)"⟩]
     | _ => [])
  | .polygon pg =>
    pg.points.enum.map fun pr =>
      ⟨pr.2, ⟨pg.id, some (pr.1 : ℤ), none⟩,
        pg.id.str ++ " (v" ++ toString (pr.1 + 1) ++ ")"⟩
  | _ => []

/-- `findConnectablePoints` from `src/utils/connections.ts`: iterate over
all elements, skipping `excludeElementId`, collecting each element's
snap candidates in order. -/
def findConnectablePoints (fuel : ℕ) (elements : List CanvasElement)
    (excludeElementId : Option ElemId) : List ConnectablePoint :=
  elements.flatMap fun element =>
    if excludeElementId == some element.id then []
    else connectablePointsFor fuel element elements

/-- A connection reference to `point-9`, which exists in no scene below:
the deleted-target case. -/
def danglingRef : ConnectionRef := ⟨⟨"point", 9⟩, none, none⟩

/-- A line whose start references the deleted `point-9` and whose end is
the absolute position (80, 80). -/
def ghostLine : LineOverlay := ⟨⟨"line", 4⟩, .ref danglingRef, .pos ⟨80, 80⟩⟩

/-- The scene containing only `ghostLine`. -/
def ghostScene : List CanvasElement := [.line ghostLine]

/-- C5, counterexample: with its start reference dangling, the line is
**not** skipped when drawing — the offline compositor draws a segment
from the fallback position (50, 50) to (80, 80), and the interactive
renderer resolves the same fallback position; resolution itself returns
unresolved (`null`) without throwing. -/
theorem dangling_endpoint_drawn_not_skipped :
    resolveEndpoint 2 (.ref danglingRef) ghostScene = some none ∧
    renderFrameLineSegment 2 ghostLine ghostScene =
      some (⟨50, 50⟩, ⟨80, 80⟩) ∧
    renderFrameLineSegment 2 ghostLine ghostScene ≠ none ∧
    lineElementResolvedPos 2 (.ref danglingRef) ghostScene = ⟨50, 50⟩ := by
  refine ⟨?_, ?_, ?_, ?_⟩
  · simp [resolveEndpoint, ghostScene, ghostLine, danglingRef, CanvasElement.id]
  · simp [renderFrameLineSegment, getPointPosition, resolveEndpoint, ghostScene,
      ghostLine, danglingRef, CanvasElement.id]
  · simp [renderFrameLineSegment]
  · simp [lineElementResolvedPos, resolveEndpoint, ghostScene, ghostLine,
      danglingRef, CanvasElement.id]

/-- C5 (amended).  A reference to a deleted element resolves to
unresolved (`null`) without throwing; the consuming code does not crash,
but instead of skipping the line both the interactive renderer
(`LineElement`) and the offline compositor (`getPointPosition` in
`useRecording`) substitute the fallback position (50, 50) and still draw
the line; only snap-candidate enumeration (`findConnectablePoints`)
actually excludes the unresolved endpoint. -/
theorem unresolved_endpoint_fallback (fuel : ℕ) (ep : LineEndpoint)
    (elements : List CanvasElement) (l : LineOverlay)
    (hep : resolveEndpoint fuel ep elements = some none)
    (hstart : resolveEndpoint fuel l.startPoint elements = some none) :
    getPointPosition fuel ep elements = ⟨50, 50⟩ ∧
    lineElementResolvedPos fuel ep elements = ⟨50, 50⟩ ∧
    renderFrameLineSegment fuel l elements =
      some (⟨50, 50⟩, getPointPosition fuel l.endPoint elements) ∧
    ∀ cp ∈ connectablePointsFor fuel (.line l) elements,
      cp.connectionRef ≠ ⟨l.id, none, some .start⟩ := by
  refine ⟨?_, ?_, ?_, ?_⟩
  · simp [getPointPosition, hep]
  · simp [lineElementResolvedPos, hep]
  · simp [renderFrameLineSegment, getPointPosition, hstart]
  · intro cp hcp
    simp only [connectablePointsFor, hstart, List.nil_append] at hcp
    rcases hre : resolveEndpoint fuel l.endPoint elements with _ | op
    · simp [hre] at hcp
    · rcases op with _ | p
      · simp [hre] at hcp
      · simp [hre] at hcp
        subst hcp
        simp

/-- C5 witness: `unresolved_endpoint_fallback` applied to the concrete
dangling scene `ghostScene`. -/
theorem unresolved_endpoint_fallback_witness :
    getPointPosition 2 (.ref danglingRef) ghostScene = ⟨50, 50⟩ ∧
    ∀ cp ∈ connectablePointsFor 2 (.line ghostLine) ghostScene,
      cp.connectionRef ≠ ⟨ghostLine.id, none, some .start⟩ := by
  have h := unresolved_endpoint_fallback 2 (.ref danglingRef) ghostScene ghostLine
    (by simp [resolveEndpoint, ghostScene, ghostLine, danglingRef, CanvasElement.id])
    (by simp [resolveEndpoint, ghostScene, ghostLine, danglingRef, CanvasElement.id])
  exact ⟨h.1, h.2.2.2⟩

/-- The modelled slice of the current store's state
(`useStore` in `src/unnamed/part_000`): the element list, the active
element id, and the id-generating `elementCounter`.  State fields no
claim reads (background image, saved templates, recording settings,
editor mode, draw buffer) are not carried. -/
structure AppState where
  elements : List CanvasElement
  activeElementId : Option ElemId
  elementCounter : ℕ
deriving DecidableEq, Repr

/-- The store's initial state: exactly the seeded rectangle
`createInitialRectangle("overlay-1", 1)`, selected, with counter 1. -/
def initialState : AppState :=
  ⟨[.rectangle ⟨⟨"overlay", 1⟩⟩], some ⟨"overlay", 1⟩, 1⟩

/-- `addElement`: append and select the new element. -/
def addElement (element : CanvasElement) (s : AppState) : AppState :=
  { s with elements := s.elements ++ [element],
           activeElementId := some element.id }

/-- A `Partial<CanvasElement>` update over the modelled fields.  The
source spreads it over the element (`{ ...el, ...updates }`), so a
present `id` field really does overwrite the element's id. -/
structure ElementUpdates where
  id : Option ElemId
  position : Option Position
  startPoint : Option LineEndpoint
  endPoint : Option LineEndpoint
  points : Option (List Position)
  closed : Option Bool
  fillEnabled : Option Bool
deriving DecidableEq, Repr

/-- The empty update (`{}`). -/
def emptyUpdates : ElementUpdates := ⟨none, none, none, none, none, none, none⟩

/-- The object spread `{ ...el, ...updates }` restricted to the modelled
fields of each variant. -/
def applyUpdates (el : CanvasElement) (u : ElementUpdates) : CanvasElement :=
  match el with
  | .rectangle r => .rectangle ⟨u.id.getD r.id⟩
  | .point p => .point ⟨u.id.getD p.id, u.position.getD p.position, p.label⟩
  | .line l =>
    .line ⟨u.id.getD l.id, u.startPoint.getD l.startPoint, u.endPoint.getD l.endPoint⟩
  | .polygon pg =>
    .polygon ⟨u.id.getD pg.id, u.points.getD pg.points, u.closed.getD pg.closed,
      u.fillEnabled.getD pg.fillEnabled⟩
  | .image i => .image (u.id.getD i)
  | .drawing i => .drawing (u.id.getD i)

/-- `updateElement`: map over the elements, spreading the update into the
element whose id matches. -/
def updateElement (id : ElemId) (updates : ElementUpdates) (s : AppState) : AppState :=
  { s with elements := s.elements.map fun el =>
      if el.id == id then applyUpdates el updates else el }

/-- `deleteElement` in the current store: filter the element out
unconditionally and, if it was active, move the selection to
`newElements[0]?.id ?? null`. -/
def deleteElement (id : ElemId) (s : AppState) : AppState :=
  let newElements := s.elements.filter fun el => el.id != id
  { s with
    elements := newElements,
    activeElementId :=
      if s.activeElementId == some id then newElements.head?.map CanvasElement.id
      else s.activeElementId }

/-- `createRectangle`: bump the counter and build
`createInitialRectangle("rectangle-" + newCounter, newCounter)`. -/
def createRectangle (s : AppState) : RectangleOverlay × AppState :=
  let newCounter := s.elementCounter + 1
  (⟨⟨"rectangle", newCounter⟩⟩, { s with elementCounter := newCounter })

/-- `createPoint`: bump the counter; position defaults to (50, 50), label
`P${newCounter}`. -/
def createPoint (position : Option Position) (s : AppState) : PointOverlay × AppState :=
  let newCounter := s.elementCounter + 1
  (⟨⟨"point", newCounter⟩, position.getD ⟨50, 50⟩, "P" ++ toString newCounter⟩,
   { s with elementCounter := newCounter })

/-- `createLine`: bump the counter and build the line. -/
def createLine (startPoint endPoint : LineEndpoint) (s : AppState) :
    LineOverlay × AppState :=
  let newCounter := s.elementCounter + 1
  (⟨⟨"line", newCounter⟩, startPoint, endPoint⟩,
   { s with elementCounter := newCounter })

/-- `createPolygon`: bump the counter; points default to `[]`, with
`closed := false` and `fillEnabled := true`. -/
def createPolygon (points : Option (List Position)) (s : AppState) :
    PolygonOverlay × AppState :=
  let newCounter := s.elementCounter + 1
  (⟨⟨"polygon", newCounter⟩, points.getD [], false, true⟩,
   { s with elementCounter := newCounter })

/-- `createImageComponent`: bump the counter (content fields are not
modelled). -/
def createImageComponent (s : AppState) : ElemId × AppState :=
  let newCounter := s.elementCounter + 1
  (⟨"image", newCounter⟩, { s with elementCounter := newCounter })

/-- `createDrawingComponent`: bump the counter (path fields are not
modelled). -/
def createDrawingComponent (s : AppState) : ElemId × AppState :=
  let newCounter := s.elementCounter + 1
  (⟨"drawing", newCounter⟩, { s with elementCounter := newCounter })

/-- `addPolygonVertex`: append a vertex to the polygon with the given id. -/
def addPolygonVertex (polygonId : ElemId) (point : Position) (s : AppState) : AppState :=
  { s with elements := s.elements.map fun el =>
      if el.id == polygonId then
        match el with
        | .polygon polygon => .polygon { polygon with points := polygon.points ++ [point] }
        | _ => el
      else el }

/-- JS `array.splice(start, 0, x)` for `start ≥ 0`: insert at
`min start length`. -/
def spliceInsert (n : ℕ) (point : Position) (points : List Position) : List Position :=
  points.take n ++ [point] ++ points.drop n

/-- `insertPolygonVertex`: `newPoints.splice(afterIndex + 1, 0, point)`. -/
def insertPolygonVertex (polygonId : ElemId) (afterIndex : ℕ) (point : Position)
    (s : AppState) : AppState :=
  { s with elements := s.elements.map fun el =>
      if el.id == polygonId then
        match el with
        | .polygon polygon =>
          .polygon { polygon with points := spliceInsert (afterIndex + 1) point polygon.points }
        | _ => el
      else el }

/-- `removePolygonVertex`: refuse when it would leave fewer than 2
points; otherwise drop the vertex at that index
(`points.filter((_, i) => i !== vertexIndex)`, i.e. `eraseIdx` for a
natural index) and unclose the polygon when fewer than 3 points remain. -/
def removePolygonVertex (polygonId : ElemId) (vertexIndex : ℕ) (s : AppState) : AppState :=
  { s with elements := s.elements.map fun el =>
      if el.id == polygonId then
        match el with
        | .polygon polygon =>
          if polygon.points.length ≤ 2 then el
          else
            let newPoints := polygon.points.eraseIdx vertexIndex
            let shouldClose := polygon.closed && decide (3 ≤ newPoints.length)
            .polygon { polygon with points := newPoints, closed := shouldClose }
        | _ => el
      else el }

/-- `closePolygon`: set `closed := true` — with no vertex-count check. -/
def closePolygon (polygonId : ElemId) (s : AppState) : AppState :=
  { s with elements := s.elements.map fun el =>
      if el.id == polygonId then
        match el with
        | .polygon polygon => .polygon { polygon with closed := true }
        | _ => el
      else el }

/-- `finishPolygonOpen`: keep `closed := false` and force
`fillEnabled := false`. -/
def finishPolygonOpen (polygonId : ElemId) (s : AppState) : AppState :=
  { s with elements := s.elements.map fun el =>
      if el.id == polygonId then
        match el with
        | .polygon polygon => .polygon { polygon with closed := false, fillEnabled := false }
        | _ => el
      else el }

/-- `connectLineEndpoint`: replace the chosen endpoint of the line with
the given connection. -/
def connectLineEndpoint (lineId : ElemId) (which : WhichEnd) (connection : LineEndpoint)
    (s : AppState) : AppState :=
  { s with elements := s.elements.map fun el =>
      if el.id == lineId then
        match el with
        | .line l =>
          match which with
          | .start => .line { l with startPoint := connection }
          | .«end» => .line { l with endPoint := connection }
        | _ => el
      else el }

/-- `disconnectLineEndpoint`: replace the chosen endpoint of the line
with an absolute position. -/
def disconnectLineEndpoint (lineId : ElemId) (which : WhichEnd) (position : Position)
    (s : AppState) : AppState :=
  { s with elements := s.elements.map fun el =>
      if el.id == lineId then
        match el with
        | .line l =>
          match which with
          | .start => .line { l with startPoint := .pos position }
          | .«end» => .line { l with endPoint := .pos position }
        | _ => el
      else el }

/-- All five polygon mutations share the shape "map over the elements,
rewriting the polygon whose id matches": this combinator captures that
shape for the preservation proofs below. -/
def mapPolygon (pid : ElemId) (F : PolygonOverlay → PolygonOverlay) (s : AppState) : AppState :=
  { s with elements := s.elements.map fun el =>
      if el.id == pid then
        match el with
        | .polygon p => .polygon (F p)
        | _ => el
      else el }

theorem addPolygonVertex_eq_mapPolygon (pid : ElemId) (pt : Position) (s : AppState) :
    addPolygonVertex pid pt s =
      mapPolygon pid (fun p => { p with points := p.points ++ [pt] }) s := rfl

theorem insertPolygonVertex_eq_mapPolygon (pid : ElemId) (i : ℕ) (pt : Position) (s : AppState) :
    insertPolygonVertex pid i pt s =
      mapPolygon pid (fun p => { p with points := spliceInsert (i + 1) pt p.points }) s := rfl

theorem removePolygonVertex_eq_mapPolygon (pid : ElemId) (i : ℕ) (s : AppState) :
    removePolygonVertex pid i s =
      mapPolygon pid (fun p =>
        if p.points.length ≤ 2 then p
        else { p with points := p.points.eraseIdx i,
                      closed := p.closed && decide (3 ≤ (p.points.eraseIdx i).length) }) s := by
  unfold removePolygonVertex mapPolygon
  congr 1
  apply List.map_congr_left
  intro el hel
  cases el <;> try rfl
  case polygon p =>
    by_cases hid : ((CanvasElement.polygon p).id == pid) = true
    · rw [if_pos hid, if_pos hid]
      by_cases hlen : p.points.length ≤ 2
      · simp [hlen]
      · simp [hlen]
    · rw [if_neg hid, if_neg hid]

theorem closePolygon_eq_mapPolygon (pid : ElemId) (s : AppState) :
    closePolygon pid s = mapPolygon pid (fun p => { p with closed := true }) s := rfl

theorem finishPolygonOpen_eq_mapPolygon (pid : ElemId) (s : AppState) :
    finishPolygonOpen pid s =
      mapPolygon pid (fun p => { p with closed := false, fillEnabled := false }) s := rfl

/-- Where a polygon in the image of `mapPolygon` comes from: either an
untouched polygon of the original scene, or `F` applied to the polygon
whose id matched. -/
theorem polygon_mem_mapPolygon {pid : ElemId} {F : PolygonOverlay → PolygonOverlay}
    {s : AppState} {pg : PolygonOverlay}
    (h : CanvasElement.polygon pg ∈ (mapPolygon pid F s).elements) :
    CanvasElement.polygon pg ∈ s.elements ∨
    ∃ pg0, CanvasElement.polygon pg0 ∈ s.elements ∧ pg0.id = pid ∧ pg = F pg0 := by
  rcases List.mem_map.1 h with ⟨el, hel, hmap⟩
  by_cases hid : (el.id == pid) = true
  · rw [if_pos hid] at hmap
    cases el with
    | polygon p =>
      right
      refine ⟨p, hel, by simpa [CanvasElement.id] using hid, ?_⟩
      simp only at hmap
      cases hmap
      rfl
    | rectangle r => simp at hmap
    | point p => simp at hmap
    | line l => simp at hmap
    | image i => simp at hmap
    | drawing i => simp at hmap
  · rw [if_neg hid] at hmap
    subst hmap
    exact Or.inl hel

/-- Invariant: every polygon has at least 2 vertices. -/
def polygonMin2 (s : AppState) : Prop :=
  ∀ pg, CanvasElement.polygon pg ∈ s.elements → 2 ≤ pg.points.length

/-- Invariant: a closed polygon has at least 3 vertices. -/
def polygonClosed3 (s : AppState) : Prop :=
  ∀ pg, CanvasElement.polygon pg ∈ s.elements → pg.closed = true → 3 ≤ pg.points.length

/-- The five polygon mutations of the store, as a command type. -/
inductive PolyOp
  | add (polygonId : ElemId) (point : Position)
  | insert (polygonId : ElemId) (afterIndex : ℕ) (point : Position)
  | remove (polygonId : ElemId) (vertexIndex : ℕ)
  | close (polygonId : ElemId)
  | finishOpen (polygonId : ElemId)

/-- Dispatch a polygon mutation to the store. -/
def applyPolyOp : PolyOp → AppState → AppState
  | .add pid pt, s => addPolygonVertex pid pt s
  | .insert pid i pt, s => insertPolygonVertex pid i pt s
  | .remove pid i, s => removePolygonVertex pid i s
  | .close pid, s => closePolygon pid s
  | .finishOpen pid, s => finishPolygonOpen pid s

/-- Run a sequence of polygon mutations. -/
def runPolyOps : List PolyOp → AppState → AppState
  | [], s => s
  | op :: rest, s => runPolyOps rest (applyPolyOp op s)

/-- The caller-side guard the UI enforces for `closePolygon` (the canvas
close-click requires ≥ 3 vertices and the properties panel disables the
Closed toggle below 3 vertices); the other four mutations need no guard. -/
def polyOpOK : PolyOp → AppState → Prop
  | .close pid, s =>
    ∀ pg, CanvasElement.polygon pg ∈ s.elements → pg.id = pid → 3 ≤ pg.points.length
  | _, _ => True

/-- A mutation sequence is guarded when each `close` in it is applied, in
the state it actually executes in, only to polygons with ≥ 3 vertices. -/
def polyOpsOK : List PolyOp → AppState → Prop
  | [], _ => True
  | op :: rest, s => polyOpOK op s ∧ polyOpsOK rest (applyPolyOp op s)

theorem length_spliceInsert (n : ℕ) (pt : Position) (points : List Position) :
    (spliceInsert n pt points).length = points.length + 1 := by
  simp [spliceInsert]
  omega

theorem applyPolyOp_polygonMin2 (op : PolyOp) (s : AppState) (h2 : polygonMin2 s) :
    polygonMin2 (applyPolyOp op s) := by
  cases op with
  | add pid pt =>
    rw [applyPolyOp, addPolygonVertex_eq_mapPolygon]
    intro pg hpg
    rcases polygon_mem_mapPolygon hpg with h | ⟨pg0, h0, _, rfl⟩
    · exact h2 _ h
    · have := h2 _ h0
      simp
      omega
  | insert pid i pt =>
    rw [applyPolyOp, insertPolygonVertex_eq_mapPolygon]
    intro pg hpg
    rcases polygon_mem_mapPolygon hpg with h | ⟨pg0, h0, _, rfl⟩
    · exact h2 _ h
    · have := h2 _ h0
      simp [length_spliceInsert]
      omega
  | remove pid i =>
    rw [applyPolyOp, removePolygonVertex_eq_mapPolygon]
    intro pg hpg
    rcases polygon_mem_mapPolygon hpg with h | ⟨pg0, h0, _, rfl⟩
    · exact h2 _ h
    · have := h2 _ h0
      by_cases hlen : pg0.points.length ≤ 2
      · simpa [hlen] using this
      · simp only [hlen, if_false]
        have herase : pg0.points.length - 1 ≤ (pg0.points.eraseIdx i).length := by
          rw [List.length_eraseIdx]
          split <;> omega
        simp only at herase ⊢
        omega
  | close pid =>
    rw [applyPolyOp, closePolygon_eq_mapPolygon]
    intro pg hpg
    rcases polygon_mem_mapPolygon hpg with h | ⟨pg0, h0, _, rfl⟩
    · exact h2 _ h
    · simpa using h2 _ h0
  | finishOpen pid =>
    rw [applyPolyOp, finishPolygonOpen_eq_mapPolygon]
    intro pg hpg
    rcases polygon_mem_mapPolygon hpg with h | ⟨pg0, h0, _, rfl⟩
    · exact h2 _ h
    · simpa using h2 _ h0

theorem applyPolyOp_polygonClosed3 (op : PolyOp) (s : AppState)
    (h3 : polygonClosed3 s) (hok : polyOpOK op s) :
    polygonClosed3 (applyPolyOp op s) := by
  cases op with
  | add pid pt =>
    rw [applyPolyOp, addPolygonVertex_eq_mapPolygon]
    intro pg hpg hcl
    rcases polygon_mem_mapPolygon hpg with h | ⟨pg0, h0, _, rfl⟩
    · exact h3 _ h hcl
    · simp only at hcl ⊢
      have := h3 _ h0 hcl
      simp
      omega
  | insert pid i pt =>
    rw [applyPolyOp, insertPolygonVertex_eq_mapPolygon]
    intro pg hpg hcl
    rcases polygon_mem_mapPolygon hpg with h | ⟨pg0, h0, _, rfl⟩
    · exact h3 _ h hcl
    · simp only at hcl ⊢
      have := h3 _ h0 hcl
      simp [length_spliceInsert]
      omega
  | remove pid i =>
    rw [applyPolyOp, removePolygonVertex_eq_mapPolygon]
    intro pg hpg hcl
    rcases polygon_mem_mapPolygon hpg with h | ⟨pg0, h0, _, rfl⟩
    · exact h3 _ h hcl
    · by_cases hlen : pg0.points.length ≤ 2
      · simp only [hlen, if_true] at hcl ⊢
        exact h3 _ h0 hcl
      · simp only [hlen, if_false] at hcl ⊢
        have hb : (pg0.closed && decide (3 ≤ (pg0.points.eraseIdx i).length)) = true := hcl
        rw [Bool.and_eq_true] at hb
        simpa using of_decide_eq_true hb.2
  | close pid =>
    rw [applyPolyOp, closePolygon_eq_mapPolygon]
    intro pg hpg hcl
    rcases polygon_mem_mapPolygon hpg with h | ⟨pg0, h0, hid, rfl⟩
    · exact h3 _ h hcl
    · simpa using hok _ h0 hid
  | finishOpen pid =>
    rw [applyPolyOp, finishPolygonOpen_eq_mapPolygon]
    intro pg hpg hcl
    rcases polygon_mem_mapPolygon hpg with h | ⟨pg0, h0, _, rfl⟩
    · exact h3 _ h hcl
    · simp at hcl

theorem mapPolygon_eq_self {pid : ElemId} {F : PolygonOverlay → PolygonOverlay}
    {s : AppState}
    (h : ∀ p, CanvasElement.polygon p ∈ s.elements → p.id = pid → F p = p) :
    mapPolygon pid F s = s := by
  unfold mapPolygon
  have hmap : (s.elements.map fun el =>
      if el.id == pid then
        match el with
        | .polygon p => .polygon (F p)
        | _ => el
      else el) = s.elements := by
    conv_rhs => rw [← List.map_id s.elements]
    apply List.map_congr_left
    intro el hel
    by_cases hid : (el.id == pid) = true
    · rw [if_pos hid]
      cases el with
      | polygon p =>
        simp only [id_eq]
        rw [h p hel (by simpa [CanvasElement.id] using hid)]
      | rectangle r => rfl
      | point p => rfl
      | line l => rfl
      | image i => rfl
      | drawing i => rfl
    · rw [if_neg hid]
      rfl
  rw [hmap]

/-- A two-vertex open polygon and the scene containing it. -/
def twoPointPolygon : PolygonOverlay := ⟨⟨"polygon", 2⟩, [⟨0, 0⟩, ⟨10, 0⟩], false, true⟩

/-- The scene holding only `twoPointPolygon`. -/
def twoPointScene : AppState := ⟨[.polygon twoPointPolygon], some ⟨"polygon", 2⟩, 2⟩

/-- C2, counterexample: `closePolygon` performs no vertex-count check —
applied to a 2-vertex polygon it yields `closed = true` with
`points.length = 2 < 3`, and the state visibly changes rather than the
edit being rejected. -/
theorem closePolygon_no_vertex_guard :
    (closePolygon ⟨"polygon", 2⟩ twoPointScene).elements =
      [.polygon ⟨⟨"polygon", 2⟩, [⟨0, 0⟩, ⟨10, 0⟩], true, true⟩] ∧
    closePolygon ⟨"polygon", 2⟩ twoPointScene ≠ twoPointScene ∧
    ¬ polygonClosed3 (closePolygon ⟨"polygon", 2⟩ twoPointScene) := by
  have he : (closePolygon ⟨"polygon", 2⟩ twoPointScene).elements =
      [.polygon ⟨⟨"polygon", 2⟩, [⟨0, 0⟩, ⟨10, 0⟩], true, true⟩] := by
    simp [closePolygon, twoPointScene, twoPointPolygon, CanvasElement.id]
  refine ⟨he, ?_, ?_⟩
  · intro h
    rw [h] at he
    simp [twoPointScene, twoPointPolygon] at he
  · intro h3
    have := h3 ⟨⟨"polygon", 2⟩, [⟨0, 0⟩, ⟨10, 0⟩], true, true⟩ (by rw [he]; simp) rfl
    simp at this

/-- C2 (amended).  Over arbitrary sequences of the five polygon
mutations: a polygon never drops below 2 vertices (`removePolygonVertex`
rejects a removal that would, by leaving the state unchanged, and a
removal that drops a closed polygon below 3 vertices forces
`closed := false`); the invariant "closed implies ≥ 3 vertices" is
preserved by every mutation **except** that `closePolygon` itself checks
nothing — it preserves the invariant only under the guard its UI callers
enforce, namely that `close` is applied only to polygons that already
have ≥ 3 vertices. -/
theorem polygon_mutation_invariants :
    (∀ (ops : List PolyOp) (s : AppState),
      polygonMin2 s → polygonMin2 (runPolyOps ops s)) ∧
    (∀ (ops : List PolyOp) (s : AppState),
      polygonClosed3 s → polyOpsOK ops s → polygonClosed3 (runPolyOps ops s)) ∧
    (∀ (pid : ElemId) (i : ℕ) (s : AppState),
      (∀ pg, CanvasElement.polygon pg ∈ s.elements → pg.id = pid →
        pg.points.length ≤ 2) →
      removePolygonVertex pid i s = s) := by
  refine ⟨?_, ?_, ?_⟩
  · intro ops
    induction ops with
    | nil => intro s h2; exact h2
    | cons op rest ih =>
      intro s h2
      exact ih _ (applyPolyOp_polygonMin2 op s h2)
  · intro ops
    induction ops with
    | nil => intro s h3 _; exact h3
    | cons op rest ih =>
      intro s h3 hok
      exact ih _ (applyPolyOp_polygonClosed3 op s h3 hok.1) hok.2
  · intro pid i s hsmall
    rw [removePolygonVertex_eq_mapPolygon]
    apply mapPolygon_eq_self
    intro p hp hid
    simp [hsmall p hp hid]

/-- A three-vertex open polygon and the scene containing it. -/
def trianglePolygon : PolygonOverlay :=
  ⟨⟨"polygon", 3⟩, [⟨0, 0⟩, ⟨10, 0⟩, ⟨0, 10⟩], false, true⟩

/-- The scene holding only `trianglePolygon`. -/
def triangleScene : AppState := ⟨[.polygon trianglePolygon], some ⟨"polygon", 3⟩, 3⟩

/-- C2 witness: `polygon_mutation_invariants` applied to closing a
3-vertex polygon (a guarded sequence), and to removing a vertex from a
2-vertex polygon (a rejected edit). -/
theorem polygon_mutation_invariants_witness :
    polygonClosed3 (runPolyOps [.close ⟨"polygon", 3⟩] triangleScene) ∧
    removePolygonVertex ⟨"polygon", 2⟩ 0 twoPointScene = twoPointScene := by
  constructor
  · apply polygon_mutation_invariants.2.1
    · intro pg hpg hcl
      simp [triangleScene] at hpg
      subst hpg
      simp [trianglePolygon] at hcl
    · refine ⟨?_, trivial⟩
      intro pg hpg _
      simp [triangleScene] at hpg
      subst hpg
      simp [trianglePolygon]
  · apply polygon_mutation_invariants.2.2
    intro pg hpg _
    simp [twoPointScene] at hpg
    subst hpg
    simp [twoPointPolygon]

namespace V1

/-- Element type tags of the older store variant
(`src/store/useStore.ts`): overlays, arrows and svg stamps. -/
inductive ElementType
  | overlay
  | arrow
  | svg
deriving DecidableEq, Repr

/-- An element of the older store, reduced to the fields its
`deleteElement` reads: id and type tag. -/
structure Element where
  id : ElemId
  type : ElementType
deriving DecidableEq, Repr

/-- The modelled slice of the older store's state. -/
structure State where
  elements : List Element
  activeElementId : Option ElemId
deriving DecidableEq, Repr

/-- `deleteElement` in the older store (`src/store/useStore.ts`): it
refuses to delete the last overlay ("Don't allow deleting the last
overlay"), and otherwise filters the element out and reassigns the
selection to `overlays[0]?.id ?? newElements[0]?.id ?? null`. -/
def deleteElement (id : ElemId) (s : State) : State :=
  let newElements := s.elements.filter fun el => el.id != id
  let overlays := newElements.filter fun el => el.type == ElementType.overlay
  if ((s.elements.find? fun el => el.id == id).map Element.type =
        some ElementType.overlay) ∧ overlays.length = 0 then s
  else
    { elements := newElements,
      activeElementId :=
        if s.activeElementId = some id then
          match overlays.head?.map Element.id with
          | some a => some a
          | none => newElements.head?.map Element.id
        else s.activeElementId }

/-- The delete handler of the older editing UI (`ElementsControl.tsx`):
"Don't allow deleting the last overlay" — refuse when the active element
is an overlay and at most one overlay exists, else delete it. -/
def handleDelete (s : State) : State :=
  match s.activeElementId.bind (fun a => s.elements.find? fun el => el.id == a) with
  | none => s
  | some activeElement =>
    let overlays := s.elements.filter fun el => el.type == ElementType.overlay
    if activeElement.type = ElementType.overlay ∧ overlays.length ≤ 1 then s
    else deleteElement activeElement.id s

end V1

/-- The delete handler of the newer editing UI (the `ElementsControl`
variant shipped with the current store): "Don't allow deleting the last
rectangle overlay" — refuse when the active element is a rectangle and
at most one rectangle exists, else call the store's `deleteElement`. -/
def handleDelete (s : AppState) : AppState :=
  match s.activeElementId.bind (fun a => s.elements.find? fun el => el.id == a) with
  | none => s
  | some activeElement =>
    let rectangles := s.elements.filter fun el => isRectangleOverlay el
    if isRectangleOverlay activeElement = true ∧ rectangles.length ≤ 1 then s
    else deleteElement activeElement.id s

/-- C8, counterexample: the current store's `deleteElement` applies every
deletion unconditionally — deleting the seeded rectangle `overlay-1`
from the initial one-element scene empties the scene (no element of the
seeded family remains), and the state changes rather than the deletion
being rejected. -/
theorem deleteElement_removes_last_seeded_overlay :
    (deleteElement ⟨"overlay", 1⟩ initialState).elements = [] ∧
    deleteElement ⟨"overlay", 1⟩ initialState ≠ initialState := by
  have he : (deleteElement ⟨"overlay", 1⟩ initialState).elements = [] := by
    simp [deleteElement, initialState, CanvasElement.id]
  refine ⟨he, ?_⟩
  intro h
  rw [h] at he
  simp [initialState] at he

/-- C8 (amended).  The "scene keeps at least one seed-family element"
policy is enforced per variant, not uniformly in `deleteElement`: the
older store's `deleteElement` itself rejects (state unchanged) exactly
when the deleted element is an overlay and no overlay would remain, and
hence always preserves overlay-existence (given unique ids); the current
store's `deleteElement` applies unconditionally, and the guard lives in
the UI delete handler, which preserves rectangle-existence (given
unique ids). -/
theorem last_seed_guard_per_variant :
    (∀ (id : ElemId) (s : V1.State),
      (s.elements.map V1.Element.id).Nodup →
      (∃ el ∈ s.elements, el.type = V1.ElementType.overlay) →
      ∃ el ∈ (V1.deleteElement id s).elements, el.type = V1.ElementType.overlay) ∧
    (∀ (id : ElemId) (s : V1.State),
      ((s.elements.find? fun el => el.id == id).map V1.Element.type =
        some V1.ElementType.overlay) →
      (((s.elements.filter fun el => el.id != id).filter fun el =>
        el.type == V1.ElementType.overlay).length = 0) →
      V1.deleteElement id s = s) ∧
    (∀ s : AppState,
      (s.elements.map CanvasElement.id).Nodup →
      (∃ el ∈ s.elements, isRectangleOverlay el = true) →
      ∃ el ∈ (handleDelete s).elements, isRectangleOverlay el = true) := by
  refine ⟨?_, ?_, ?_⟩
  · intro id s nodup ⟨el, hel, hty⟩
    unfold V1.deleteElement
    by_cases hcond : ((s.elements.find? fun el2 => el2.id == id).map V1.Element.type =
        some V1.ElementType.overlay) ∧
        ((s.elements.filter fun el2 => el2.id != id).filter fun el2 =>
          el2.type == V1.ElementType.overlay).length = 0
    · rw [if_pos hcond]
      exact ⟨el, hel, hty⟩
    · rw [if_neg hcond]
      by_cases hid : el.id = id
      · -- the element being deleted is (the) overlay with this id
        have hsome : (s.elements.find? fun el2 => el2.id == id).isSome := by
          rw [List.find?_isSome]
          exact ⟨el, hel, by simpa using hid⟩
        rcases hfind : s.elements.find? fun el2 => el2.id == id with _ | e
        · rw [hfind] at hsome
          simp at hsome
        · have he_mem : e ∈ s.elements := List.mem_of_find?_eq_some hfind
          have he_id : e.id = id := by simpa using List.find?_some hfind
          have he_el : e = el :=
            List.inj_on_of_nodup_map nodup he_mem hel (by rw [he_id, hid])
          have hA : (s.elements.find? fun el2 => el2.id == id).map V1.Element.type =
              some V1.ElementType.overlay := by
            rw [hfind, he_el]
            simp [hty]
          have hB : ¬ (((s.elements.filter fun el2 => el2.id != id).filter fun el2 =>
              el2.type == V1.ElementType.overlay).length = 0) :=
            fun hB => hcond ⟨hA, hB⟩
          rcases hfe : (s.elements.filter fun el2 => el2.id != id).filter fun el2 =>
              el2.type == V1.ElementType.overlay with _ | ⟨ov, rest⟩
          · rw [hfe] at hB
            simp at hB
          · have hov : ov ∈ (s.elements.filter fun el2 => el2.id != id).filter fun el2 =>
                el2.type == V1.ElementType.overlay := by
              rw [hfe]
              exact List.mem_cons_self _ _
            have h1 := List.mem_filter.1 hov
            exact ⟨ov, h1.1, by simpa using h1.2⟩
      · -- the surviving overlay
        refine ⟨el, ?_, hty⟩
        exact List.mem_filter.2 ⟨hel, by simpa using hid⟩
  · intro id s h1 h2
    unfold V1.deleteElement
    rw [if_pos ⟨h1, h2⟩]
  · intro s nodup ⟨r, hr, hrty⟩
    unfold handleDelete
    rcases hfa : s.activeElementId.bind (fun a => s.elements.find? fun el => el.id == a)
      with _ | activeElement
    · simp only [hfa]
      exact ⟨r, hr, hrty⟩
    · simp only [hfa]
      have hact_mem : activeElement ∈ s.elements := by
        rcases ha : s.activeElementId with _ | a
        · rw [ha] at hfa
          simp at hfa
        · rw [ha, Option.some_bind'] at hfa
          exact List.mem_of_find?_eq_some hfa
      by_cases hguard : isRectangleOverlay activeElement = true ∧
          (s.elements.filter fun el => isRectangleOverlay el).length ≤ 1
      · rw [if_pos hguard]
        exact ⟨r, hr, hrty⟩
      · rw [if_neg hguard]
        by_cases hrect : isRectangleOverlay activeElement = true
        · have hlen : ¬ ((s.elements.filter fun el => isRectangleOverlay el).length ≤ 1) :=
            fun hl => hguard ⟨hrect, hl⟩
          have hnodup_rect : (((s.elements.filter fun el => isRectangleOverlay el).map
              CanvasElement.id)).Nodup :=
            ((List.filter_sublist _).map CanvasElement.id).nodup nodup
          rcases hfe : s.elements.filter fun el => isRectangleOverlay el with
            _ | ⟨r1, _ | ⟨r2, rest⟩⟩
          · rw [hfe] at hlen
            simp at hlen
          · rw [hfe] at hlen
            simp at hlen
          · have hr1 : r1 ∈ s.elements.filter fun el => isRectangleOverlay el := by
              rw [hfe]
              exact List.mem_cons_self _ _
            have hr2 : r2 ∈ s.elements.filter fun el => isRectangleOverlay el := by
              rw [hfe]
              exact List.mem_cons_of_mem _ (List.mem_cons_self _ _)
            have hne : r1.id ≠ r2.id := by
              rw [hfe] at hnodup_rect
              simp only [List.map_cons, List.nodup_cons, List.mem_cons] at hnodup_rect
              exact fun hcontra => hnodup_rect.1 (Or.inl hcontra)
            have hpick : ∃ rv, rv ∈ (s.elements.filter fun el => isRectangleOverlay el) ∧
                rv.id ≠ activeElement.id := by
              by_cases h1a : r1.id = activeElement.id
              · exact ⟨r2, hr2, fun hc => hne (by rw [h1a, hc])⟩
              · exact ⟨r1, hr1, h1a⟩
            rcases hpick with ⟨rv, hrv_mem, hrv_ne⟩
            have h3 := List.mem_filter.1 hrv_mem
            refine ⟨rv, ?_, h3.2⟩
            exact List.mem_filter.2 ⟨h3.1, by simpa using hrv_ne⟩
        · -- active element is not a rectangle: r survives
          have hne : r.id ≠ activeElement.id := by
            intro hc
            have : r = activeElement :=
              List.inj_on_of_nodup_map nodup hr hact_mem hc
            rw [this] at hrty
            exact hrect hrty
          refine ⟨r, ?_, hrty⟩
          exact List.mem_filter.2 ⟨hr, by simpa using hne⟩

/-- C8 witness: the older store rejects deleting the last overlay
(`last_seed_guard_per_variant` applied to a one-overlay scene). -/
theorem last_seed_guard_per_variant_witness :
    V1.deleteElement ⟨"overlay", 1⟩
      ⟨[⟨⟨"overlay", 1⟩, V1.ElementType.overlay⟩], some ⟨"overlay", 1⟩⟩ =
      ⟨[⟨⟨"overlay", 1⟩, V1.ElementType.overlay⟩], some ⟨"overlay", 1⟩⟩ :=
  last_seed_guard_per_variant.2.1 ⟨"overlay", 1⟩
    ⟨[⟨⟨"overlay", 1⟩, V1.ElementType.overlay⟩], some ⟨"overlay", 1⟩⟩
    (by simp) (by simp)

/-- C10.  After any `deleteElement` call, in either store variant, the
selection never dangles on a removed element.  Current store (the
`part_000` `useStore`): the new `activeElementId` is never the deleted
id; no surviving element carries the deleted id; if the deleted element
was active the selection moves to the first remaining element's id (or
`null` when the scene becomes empty); otherwise the selection is
unchanged.  Older store (`src/store/useStore.ts`): when the last-overlay
guard fires, the deletion is rejected and the whole state — selection
included — is unchanged (nothing is deleted, so nothing dangles); when
the deletion applies, the same four properties hold, with the selection
preferring `overlays[0]?.id ?? newElements[0]?.id ?? null`. -/
theorem deleteElement_active_never_dangles (id : ElemId) (s : AppState) (t : V1.State) :
    ((deleteElement id s).activeElementId ≠ some id ∧
     (∀ el ∈ (deleteElement id s).elements, el.id ≠ id) ∧
     (s.activeElementId = some id →
       ((deleteElement id s).elements = [] ∧
         (deleteElement id s).activeElementId = none) ∨
       (∃ el ∈ (deleteElement id s).elements,
         (deleteElement id s).activeElementId = some el.id)) ∧
     (s.activeElementId ≠ some id →
       (deleteElement id s).activeElementId = s.activeElementId)) ∧
    ((((t.elements.find? fun el => el.id == id).map V1.Element.type =
        some V1.ElementType.overlay) ∧
      ((t.elements.filter fun el => el.id != id).filter fun el =>
        el.type == V1.ElementType.overlay).length = 0) →
      V1.deleteElement id t = t) ∧
    (¬ (((t.elements.find? fun el => el.id == id).map V1.Element.type =
        some V1.ElementType.overlay) ∧
      ((t.elements.filter fun el => el.id != id).filter fun el =>
        el.type == V1.ElementType.overlay).length = 0) →
      ((V1.deleteElement id t).activeElementId ≠ some id ∧
       (∀ el ∈ (V1.deleteElement id t).elements, el.id ≠ id) ∧
       (t.activeElementId = some id →
         ((V1.deleteElement id t).elements = [] ∧
           (V1.deleteElement id t).activeElementId = none) ∨
         (∃ el ∈ (V1.deleteElement id t).elements,
           (V1.deleteElement id t).activeElementId = some el.id)) ∧
       (t.activeElementId ≠ some id →
         (V1.deleteElement id t).activeElementId = t.activeElementId))) := by
  refine ⟨?_, ?_, ?_⟩
  · -- current store
    have hmem : ∀ el ∈ s.elements.filter (fun el => el.id != id), el.id ≠ id := by
      intro el hel
      have := (List.mem_filter.1 hel).2
      simpa using this
    have helems : (deleteElement id s).elements =
        s.elements.filter (fun el => el.id != id) := rfl
    have hactive : (deleteElement id s).activeElementId =
        if (s.activeElementId == some id) = true then
          (s.elements.filter (fun el => el.id != id)).head?.map CanvasElement.id
        else s.activeElementId := rfl
    by_cases hact : (s.activeElementId == some id) = true
    · have hact' : s.activeElementId = some id := by simpa using hact
      rcases hfe : s.elements.filter (fun el => el.id != id) with _ | ⟨el0, rest⟩
      · refine ⟨?_, ?_, ?_, ?_⟩
        · rw [hactive, if_pos hact, hfe]
          simp
        · intro el hel
          rw [helems, hfe] at hel
          simp at hel
        · intro _
          left
          rw [helems, hactive, if_pos hact, hfe]
          simp
        · intro hne
          exact absurd hact' hne
      · have h0 : el0 ∈ s.elements.filter (fun el => el.id != id) := by
          rw [hfe]
          exact List.mem_cons_self _ _
        have h0ne : el0.id ≠ id := hmem el0 h0
        refine ⟨?_, ?_, ?_, ?_⟩
        · rw [hactive, if_pos hact, hfe]
          simpa using h0ne
        · intro el hel
          rw [helems] at hel
          exact hmem el hel
        · intro _
          right
          refine ⟨el0, by rw [helems]; exact h0, ?_⟩
          rw [hactive, if_pos hact, hfe]
          rfl
        · intro hne
          exact absurd hact' hne
    · have hact' : s.activeElementId ≠ some id := by simpa using hact
      refine ⟨?_, ?_, ?_, ?_⟩
      · rw [hactive, if_neg hact]
        exact hact'
      · intro el hel
        rw [helems] at hel
        exact hmem el hel
      · intro heq
        exact absurd heq hact'
      · intro _
        rw [hactive, if_neg hact]
  · -- older store, rejected branch
    intro hcond
    unfold V1.deleteElement
    rw [if_pos hcond]
  · -- older store, applied branch
    intro hcond
    have hmem : ∀ el ∈ t.elements.filter (fun el => el.id != id), el.id ≠ id := by
      intro el hel
      have := (List.mem_filter.1 hel).2
      simpa using this
    have helems : (V1.deleteElement id t).elements =
        t.elements.filter (fun el => el.id != id) := by
      simp only [V1.deleteElement]
      rw [if_neg hcond]
    have hactive : (V1.deleteElement id t).activeElementId =
        (if t.activeElementId = some id then
          (match ((t.elements.filter fun el => el.id != id).filter fun el =>
              el.type == V1.ElementType.overlay).head?.map V1.Element.id with
           | some a => some a
           | none => (t.elements.filter fun el => el.id != id).head?.map V1.Element.id)
         else t.activeElementId) := by
      simp only [V1.deleteElement]
      rw [if_neg hcond]
    by_cases hact : t.activeElementId = some id
    · rcases hfe : t.elements.filter (fun el => el.id != id) with _ | ⟨e0, rest⟩
      · refine ⟨?_, ?_, ?_, ?_⟩
        · rw [hactive, if_pos hact, hfe]
          simp
        · intro el hel
          rw [helems, hfe] at hel
          simp at hel
        · intro _
          left
          refine ⟨by rw [helems, hfe], ?_⟩
          rw [hactive, if_pos hact, hfe]
          simp
        · intro hne
          exact absurd hact hne
      · have h0 : e0 ∈ t.elements.filter (fun el => el.id != id) := by
          rw [hfe]
          exact List.mem_cons_self _ _
        have h0ne : e0.id ≠ id := hmem e0 h0
        rcases hov : (e0 :: rest).filter (fun el =>
            el.type == V1.ElementType.overlay) with _ | ⟨ov, orest⟩
        · -- no overlay among the survivors: fall back to newElements[0]
          refine ⟨?_, ?_, ?_, ?_⟩
          · rw [hactive, if_pos hact, hfe, hov]
            simpa using h0ne
          · intro el hel
            rw [helems] at hel
            exact hmem el hel
          · intro _
            right
            refine ⟨e0, by rw [helems]; exact h0, ?_⟩
            rw [hactive, if_pos hact, hfe, hov]
            simp
          · intro hne
            exact absurd hact hne
        · -- an overlay survives: selection moves to overlays[0]
          have hov_mem : ov ∈ (e0 :: rest).filter (fun el =>
              el.type == V1.ElementType.overlay) := by
            rw [hov]
            exact List.mem_cons_self _ _
          have hov_ne : ov ∈ t.elements.filter (fun el => el.id != id) := by
            rw [hfe]
            exact (List.mem_filter.1 hov_mem).1
          refine ⟨?_, ?_, ?_, ?_⟩
          · rw [hactive, if_pos hact, hfe, hov]
            simpa using hmem ov hov_ne
          · intro el hel
            rw [helems] at hel
            exact hmem el hel
          · intro _
            right
            refine ⟨ov, by rw [helems]; exact hov_ne, ?_⟩
            rw [hactive, if_pos hact, hfe, hov]
            simp
          · intro hne
            exact absurd hact hne
    · refine ⟨?_, ?_, ?_, ?_⟩
      · rw [hactive, if_neg hact]
        exact hact
      · intro el hel
        rw [helems] at hel
        exact hmem el hel
      · intro heq
        exact absurd heq hact
      · intro _
        rw [hactive, if_neg hact]

/-- C10 witness: in the current store, deleting the selected seeded
rectangle leaves no dangling selection; in the older store, deleting the
selected arrow from a two-element scene (deletion applies, since the
target is not an overlay) also leaves no dangling selection. -/
theorem deleteElement_active_never_dangles_witness :
    (deleteElement ⟨"overlay", 1⟩ initialState).activeElementId ≠
      some ⟨"overlay", 1⟩ ∧
    (V1.deleteElement ⟨"arrow", 2⟩
      ⟨[⟨⟨"overlay", 1⟩, V1.ElementType.overlay⟩,
        ⟨⟨"arrow", 2⟩, V1.ElementType.arrow⟩],
       some ⟨"arrow", 2⟩⟩).activeElementId ≠ some ⟨"arrow", 2⟩ :=
  ⟨(deleteElement_active_never_dangles ⟨"overlay", 1⟩ initialState
      ⟨[], none⟩).1.1,
   ((deleteElement_active_never_dangles ⟨"arrow", 2⟩ initialState
      ⟨[⟨⟨"overlay", 1⟩, V1.ElementType.overlay⟩,
        ⟨⟨"arrow", 2⟩, V1.ElementType.arrow⟩],
       some ⟨"arrow", 2⟩⟩).2.2 (by simp)).1⟩

/-- The store operations the app performs on the element collection, as a
command type: factory-create-and-add (the app always adds the element a
factory just returned, e.g. `addElement(createRectangle())`), update,
delete, selection, the polygon mutations, and the line endpoint
(dis)connections. -/
inductive StoreOp
  | addRectangle
  | addPoint (position : Option Position)
  | addLine (startPoint endPoint : LineEndpoint)
  | addPolygon (points : Option (List Position))
  | addImageComponent
  | addDrawingComponent
  | update (id : ElemId) (updates : ElementUpdates)
  | delete (id : ElemId)
  | setActive (id : Option ElemId)
  | poly (op : PolyOp)
  | connect (lineId : ElemId) (which : WhichEnd) (connection : LineEndpoint)
  | disconnect (lineId : ElemId) (which : WhichEnd) (position : Position)

/-- Dispatch a store operation. -/
def applyStoreOp : StoreOp → AppState → AppState
  | .addRectangle, s => addElement (.rectangle (createRectangle s).1) (createRectangle s).2
  | .addPoint pos, s => addElement (.point (createPoint pos s).1) (createPoint pos s).2
  | .addLine sp ep, s => addElement (.line (createLine sp ep s).1) (createLine sp ep s).2
  | .addPolygon pts, s => addElement (.polygon (createPolygon pts s).1) (createPolygon pts s).2
  | .addImageComponent, s =>
    addElement (.image (createImageComponent s).1) (createImageComponent s).2
  | .addDrawingComponent, s =>
    addElement (.drawing (createDrawingComponent s).1) (createDrawingComponent s).2
  | .update id u, s => updateElement id u s
  | .delete id, s => deleteElement id s
  | .setActive id, s => { s with activeElementId := id }
  | .poly op, s => applyPolyOp op s
  | .connect lid w c, s => connectLineEndpoint lid w c s
  | .disconnect lid w p, s => disconnectLineEndpoint lid w p s

/-- Run a sequence of store operations. -/
def runStoreOps : List StoreOp → AppState → AppState
  | [], s => s
  | op :: rest, s => runStoreOps rest (applyStoreOp op s)

/-- The discipline every in-repo call site follows: `updateElement` is
never passed an `id` field in its updates.  All other operations are
unrestricted. -/
def storeOpOK : StoreOp → Prop
  | .update _ u => u.id = none
  | _ => True

/-- Does this operation delete the given id? -/
def deletesId : StoreOp → ElemId → Prop
  | .delete did, i => did = i
  | _, _ => False

/-- The scene's id invariant: element ids are pairwise distinct and every
id's embedded counter is bounded by the store's `elementCounter`. -/
def IdsOK (s : AppState) : Prop :=
  (s.elements.map CanvasElement.id).Nodup ∧
  ∀ i ∈ s.elements.map CanvasElement.id, i.counter ≤ s.elementCounter

theorem applyUpdates_id (el : CanvasElement) (u : ElementUpdates) :
    (applyUpdates el u).id = u.id.getD el.id := by
  cases el <;> rfl

theorem map_id_of_pointwise {f : CanvasElement → CanvasElement}
    (l : List CanvasElement) (hf : ∀ el ∈ l, (f el).id = el.id) :
    (l.map f).map CanvasElement.id = l.map CanvasElement.id := by
  rw [List.map_map]
  exact List.map_congr_left fun el hel => hf el hel

theorem updateElement_map_id (id : ElemId) (u : ElementUpdates) (s : AppState)
    (hu : u.id = none) :
    (updateElement id u s).elements.map CanvasElement.id =
      s.elements.map CanvasElement.id := by
  apply map_id_of_pointwise
  intro el _
  by_cases hid : (el.id == id) = true
  · rw [if_pos hid, applyUpdates_id, hu]
    rfl
  · rw [if_neg hid]

theorem mapPolygon_map_id {pid : ElemId} {F : PolygonOverlay → PolygonOverlay}
    (s : AppState) (hF : ∀ p, (F p).id = p.id) :
    (mapPolygon pid F s).elements.map CanvasElement.id =
      s.elements.map CanvasElement.id := by
  apply map_id_of_pointwise
  intro el _
  by_cases hid : (el.id == pid) = true
  · rw [if_pos hid]
    cases el with
    | polygon p => exact hF p
    | rectangle r => rfl
    | point p => rfl
    | line l => rfl
    | image i => rfl
    | drawing i => rfl
  · rw [if_neg hid]

theorem applyPolyOp_map_id (op : PolyOp) (s : AppState) :
    (applyPolyOp op s).elements.map CanvasElement.id =
      s.elements.map CanvasElement.id := by
  cases op with
  | add pid pt =>
    rw [applyPolyOp, addPolygonVertex_eq_mapPolygon]
    exact mapPolygon_map_id s fun p => rfl
  | insert pid i pt =>
    rw [applyPolyOp, insertPolygonVertex_eq_mapPolygon]
    exact mapPolygon_map_id s fun p => rfl
  | remove pid i =>
    rw [applyPolyOp, removePolygonVertex_eq_mapPolygon]
    refine mapPolygon_map_id s fun p => ?_
    by_cases hlen : p.points.length ≤ 2
    · rw [if_pos hlen]
    · rw [if_neg hlen]
  | close pid =>
    rw [applyPolyOp, closePolygon_eq_mapPolygon]
    exact mapPolygon_map_id s fun p => rfl
  | finishOpen pid =>
    rw [applyPolyOp, finishPolygonOpen_eq_mapPolygon]
    exact mapPolygon_map_id s fun p => rfl

theorem connectLineEndpoint_map_id (lid : ElemId) (w : WhichEnd)
    (c : LineEndpoint) (s : AppState) :
    (connectLineEndpoint lid w c s).elements.map CanvasElement.id =
      s.elements.map CanvasElement.id := by
  apply map_id_of_pointwise
  intro el _
  by_cases hid : (el.id == lid) = true
  · rw [if_pos hid]
    cases el <;> cases w <;> rfl
  · rw [if_neg hid]

theorem disconnectLineEndpoint_map_id (lid : ElemId) (w : WhichEnd)
    (p : Position) (s : AppState) :
    (disconnectLineEndpoint lid w p s).elements.map CanvasElement.id =
      s.elements.map CanvasElement.id := by
  apply map_id_of_pointwise
  intro el _
  by_cases hid : (el.id == lid) = true
  · rw [if_pos hid]
    cases el <;> cases w <;> rfl
  · rw [if_neg hid]

theorem IdsOK_add (s : AppState) (el : CanvasElement) (h : IdsOK s)
    (hid : el.id.counter = s.elementCounter + 1) :
    IdsOK ⟨s.elements ++ [el], some el.id, s.elementCounter + 1⟩ := by
  obtain ⟨hnd, hle⟩ := h
  constructor
  · rw [List.map_append, List.nodup_append]
    refine ⟨hnd, by simp, ?_⟩
    intro a ha hb
    simp only [List.map_cons, List.map_nil, List.mem_singleton] at hb
    subst hb
    have := hle _ ha
    omega
  · intro i hi
    rw [List.map_append] at hi
    dsimp only
    rcases List.mem_append.1 hi with h1 | h1
    · have := hle _ h1
      omega
    · simp only [List.map_cons, List.map_nil, List.mem_singleton] at h1
      subst h1
      omega

theorem applyStoreOp_IdsOK (op : StoreOp) (s : AppState) (hok : storeOpOK op)
    (h : IdsOK s) : IdsOK (applyStoreOp op s) := by
  cases op with
  | addRectangle => exact IdsOK_add s _ h rfl
  | addPoint pos => exact IdsOK_add s _ h rfl
  | addLine sp ep => exact IdsOK_add s _ h rfl
  | addPolygon pts => exact IdsOK_add s _ h rfl
  | addImageComponent => exact IdsOK_add s _ h rfl
  | addDrawingComponent => exact IdsOK_add s _ h rfl
  | update id u =>
    have hmap := updateElement_map_id id u s hok
    exact ⟨hmap ▸ h.1, fun i hi => h.2 i (hmap ▸ hi)⟩
  | delete id =>
    obtain ⟨hnd, hle⟩ := h
    constructor
    · exact ((List.filter_sublist _).map CanvasElement.id).nodup hnd
    · intro i hi
      have hsub : ((s.elements.filter fun el => el.id != id).map CanvasElement.id).Sublist
          (s.elements.map CanvasElement.id) :=
        (List.filter_sublist _).map CanvasElement.id
      exact hle i (hsub.subset hi)
  | setActive id => exact h
  | poly op =>
    have hred : applyStoreOp (StoreOp.poly op) s = applyPolyOp op s := rfl
    rw [hred]
    have hmap := applyPolyOp_map_id op s
    have hcnt : (applyPolyOp op s).elementCounter = s.elementCounter := by
      cases op <;> rfl
    refine ⟨hmap ▸ h.1, fun i hi => ?_⟩
    rw [hcnt]
    exact h.2 i (hmap ▸ hi)
  | connect lid w c =>
    have hmap := connectLineEndpoint_map_id lid w c s
    exact ⟨hmap ▸ h.1, fun i hi => h.2 i (hmap ▸ hi)⟩
  | disconnect lid w p =>
    have hmap := disconnectLineEndpoint_map_id lid w p s
    exact ⟨hmap ▸ h.1, fun i hi => h.2 i (hmap ▸ hi)⟩

theorem id_survives_applyStoreOp (op : StoreOp) (s : AppState) (hok : storeOpOK op)
    (el : CanvasElement) (hel : el ∈ s.elements) (hnd : ¬ deletesId op el.id) :
    ∃ el' ∈ (applyStoreOp op s).elements, el'.id = el.id := by
  have hmapcase : ∀ (t : AppState),
      t.elements.map CanvasElement.id = s.elements.map CanvasElement.id →
      ∃ el' ∈ t.elements, el'.id = el.id := by
    intro t ht
    have : el.id ∈ t.elements.map CanvasElement.id := by
      rw [ht]
      exact List.mem_map_of_mem _ hel
    rcases List.mem_map.1 this with ⟨el', hel', heq⟩
    exact ⟨el', hel', heq⟩
  cases op with
  | addRectangle => exact ⟨el, List.mem_append_left _ hel, rfl⟩
  | addPoint pos => exact ⟨el, List.mem_append_left _ hel, rfl⟩
  | addLine sp ep => exact ⟨el, List.mem_append_left _ hel, rfl⟩
  | addPolygon pts => exact ⟨el, List.mem_append_left _ hel, rfl⟩
  | addImageComponent => exact ⟨el, List.mem_append_left _ hel, rfl⟩
  | addDrawingComponent => exact ⟨el, List.mem_append_left _ hel, rfl⟩
  | update id u => exact hmapcase _ (updateElement_map_id id u s hok)
  | delete did =>
    refine ⟨el, ?_, rfl⟩
    refine List.mem_filter.2 ⟨hel, ?_⟩
    simp only [deletesId] at hnd
    simpa using fun hc => hnd (by rw [hc])
  | setActive id => exact ⟨el, hel, rfl⟩
  | poly op => exact hmapcase _ (applyPolyOp_map_id op s)
  | connect lid w c => exact hmapcase _ (connectLineEndpoint_map_id lid w c s)
  | disconnect lid w p => exact hmapcase _ (disconnectLineEndpoint_map_id lid w p s)

/-- The id the factory call of a single operation generates (empty for
non-creating operations): each factory returns `⟨family, counter + 1⟩`
at the state it executes in. -/
def genIdOf : StoreOp → AppState → List ElemId
  | .addRectangle, s => [⟨"rectangle", s.elementCounter + 1⟩]
  | .addPoint _, s => [⟨"point", s.elementCounter + 1⟩]
  | .addLine _ _, s => [⟨"line", s.elementCounter + 1⟩]
  | .addPolygon _, s => [⟨"polygon", s.elementCounter + 1⟩]
  | .addImageComponent, s => [⟨"image", s.elementCounter + 1⟩]
  | .addDrawingComponent, s => [⟨"drawing", s.elementCounter + 1⟩]
  | .update _ _, _ => []
  | .delete _, _ => []
  | .setActive _, _ => []
  | .poly _, _ => []
  | .connect _ _ _, _ => []
  | .disconnect _ _ _, _ => []

/-- The ids generated by the factory calls of a run of operations, in
order. -/
def generatedIds : List StoreOp → AppState → List ElemId
  | [], _ => []
  | op :: rest, s => genIdOf op s ++ generatedIds rest (applyStoreOp op s)

theorem applyStoreOp_counter_mono (op : StoreOp) (s : AppState) :
    s.elementCounter ≤ (applyStoreOp op s).elementCounter := by
  cases op with
  | addRectangle => exact Nat.le_succ _
  | addPoint pos => exact Nat.le_succ _
  | addLine sp ep => exact Nat.le_succ _
  | addPolygon pts => exact Nat.le_succ _
  | addImageComponent => exact Nat.le_succ _
  | addDrawingComponent => exact Nat.le_succ _
  | update id u => exact Nat.le_refl _
  | delete id => exact Nat.le_refl _
  | setActive id => exact Nat.le_refl _
  | poly op =>
    have hred : applyStoreOp (StoreOp.poly op) s = applyPolyOp op s := rfl
    rw [hred]
    have : (applyPolyOp op s).elementCounter = s.elementCounter := by cases op <;> rfl
    omega
  | connect lid w c => exact Nat.le_refl _
  | disconnect lid w p => exact Nat.le_refl _

theorem generatedIds_counter_gt (ops : List StoreOp) :
    ∀ (s : AppState) (i : ElemId), i ∈ generatedIds ops s →
      s.elementCounter < i.counter := by
  induction ops with
  | nil =>
    intro s i hi
    simp [generatedIds] at hi
  | cons op rest ih =>
    intro s i hi
    rw [generatedIds] at hi
    rcases List.mem_append.1 hi with h1 | h1
    · cases op with
      | addRectangle => simp [genIdOf] at h1; subst h1; exact Nat.lt_succ_self _
      | addPoint pos => simp [genIdOf] at h1; subst h1; exact Nat.lt_succ_self _
      | addLine sp ep => simp [genIdOf] at h1; subst h1; exact Nat.lt_succ_self _
      | addPolygon pts => simp [genIdOf] at h1; subst h1; exact Nat.lt_succ_self _
      | addImageComponent => simp [genIdOf] at h1; subst h1; exact Nat.lt_succ_self _
      | addDrawingComponent => simp [genIdOf] at h1; subst h1; exact Nat.lt_succ_self _
      | update id u => simp [genIdOf] at h1
      | delete id => simp [genIdOf] at h1
      | setActive id => simp [genIdOf] at h1
      | poly op2 => simp [genIdOf] at h1
      | connect a b c => simp [genIdOf] at h1
      | disconnect a b c => simp [genIdOf] at h1
    · have := ih (applyStoreOp op s) i h1
      have := applyStoreOp_counter_mono op s
      omega

theorem generatedIds_nodup (ops : List StoreOp) :
    ∀ s : AppState, (generatedIds ops s).Nodup := by
  induction ops with
  | nil =>
    intro s
    simp [generatedIds]
  | cons op rest ih =>
    intro s
    rw [generatedIds]
    have htail : ∀ x ∈ generatedIds rest (applyStoreOp op s),
        (applyStoreOp op s).elementCounter < x.counter :=
      fun x hx => generatedIds_counter_gt rest (applyStoreOp op s) x hx
    cases op with
    | addRectangle =>
      simp only [genIdOf, List.singleton_append, List.nodup_cons]
      refine ⟨fun hx => ?_, ih _⟩
      have h1 := htail _ hx
      have h2 : (applyStoreOp (StoreOp.addRectangle) s).elementCounter = s.elementCounter + 1 := rfl
      rw [h2] at h1
      exact absurd h1 (by simp)
    | addPoint pos =>
      simp only [genIdOf, List.singleton_append, List.nodup_cons]
      refine ⟨fun hx => ?_, ih _⟩
      have h1 := htail _ hx
      have h2 : (applyStoreOp (StoreOp.addPoint pos) s).elementCounter = s.elementCounter + 1 := rfl
      rw [h2] at h1
      exact absurd h1 (by simp)
    | addLine sp ep =>
      simp only [genIdOf, List.singleton_append, List.nodup_cons]
      refine ⟨fun hx => ?_, ih _⟩
      have h1 := htail _ hx
      have h2 : (applyStoreOp (StoreOp.addLine sp ep) s).elementCounter = s.elementCounter + 1 := rfl
      rw [h2] at h1
      exact absurd h1 (by simp)
    | addPolygon pts =>
      simp only [genIdOf, List.singleton_append, List.nodup_cons]
      refine ⟨fun hx => ?_, ih _⟩
      have h1 := htail _ hx
      have h2 : (applyStoreOp (StoreOp.addPolygon pts) s).elementCounter = s.elementCounter + 1 := rfl
      rw [h2] at h1
      exact absurd h1 (by simp)
    | addImageComponent =>
      simp only [genIdOf, List.singleton_append, List.nodup_cons]
      refine ⟨fun hx => ?_, ih _⟩
      have h1 := htail _ hx
      have h2 : (applyStoreOp (StoreOp.addImageComponent) s).elementCounter = s.elementCounter + 1 := rfl
      rw [h2] at h1
      exact absurd h1 (by simp)
    | addDrawingComponent =>
      simp only [genIdOf, List.singleton_append, List.nodup_cons]
      refine ⟨fun hx => ?_, ih _⟩
      have h1 := htail _ hx
      have h2 : (applyStoreOp (StoreOp.addDrawingComponent) s).elementCounter = s.elementCounter + 1 := rfl
      rw [h2] at h1
      exact absurd h1 (by simp)
    | update id u => simpa [genIdOf] using ih _
    | delete id => simpa [genIdOf] using ih _
    | setActive id => simpa [genIdOf] using ih _
    | poly op2 => simpa [genIdOf] using ih _
    | connect a b c => simpa [genIdOf] using ih _
    | disconnect a b c => simpa [genIdOf] using ih _

/-- C9, counterexample: `updateElement` spreads its updates over the
element, so an update carrying an `id` field **does** change an existing
element's id after creation — here renaming the seeded `overlay-1` to
`rectangle-2`. -/
theorem updateElement_can_change_id :
    ((updateElement ⟨"overlay", 1⟩
        ⟨some ⟨"rectangle", 2⟩, none, none, none, none, none, none⟩
        initialState).elements.map CanvasElement.id) = [⟨"rectangle", 2⟩] ∧
    initialState.elements.map CanvasElement.id = [⟨"overlay", 1⟩] ∧
    (⟨"rectangle", 2⟩ : ElemId) ≠ ⟨"overlay", 1⟩ := by
  refine ⟨?_, ?_, by decide⟩
  · simp [updateElement, applyUpdates, initialState, CanvasElement.id]
  · simp [initialState, CanvasElement.id]

/-- C9 (amended).  Under the discipline every in-repo call site follows —
elements are added via the factory creators and `updateElement` is never
passed an `id` field — element ids are pairwise distinct in every
reachable scene state (and id counters never exceed `elementCounter`);
an id-free update leaves the scene's id list unchanged; every element
survives every non-deleting operation with its id intact; and the
factory id-generation scheme never produces an id equal to one it
produced before (the monotonically increasing counter embedded in each
id never repeats). -/
theorem ids_unique_and_generator_fresh :
    IdsOK initialState ∧
    (∀ (ops : List StoreOp) (s : AppState), (∀ op ∈ ops, storeOpOK op) →
      IdsOK s → IdsOK (runStoreOps ops s)) ∧
    (∀ (id : ElemId) (u : ElementUpdates) (s : AppState), u.id = none →
      (updateElement id u s).elements.map CanvasElement.id =
        s.elements.map CanvasElement.id) ∧
    (∀ (op : StoreOp) (s : AppState), storeOpOK op →
      ∀ el ∈ s.elements, ¬ deletesId op el.id →
        ∃ el' ∈ (applyStoreOp op s).elements, el'.id = el.id) ∧
    (∀ (ops : List StoreOp) (s : AppState), (generatedIds ops s).Nodup) := by
  refine ⟨?_, ?_, updateElement_map_id, id_survives_applyStoreOp,
    fun ops s => generatedIds_nodup ops s⟩
  · constructor
    · simp [initialState]
    · intro i hi
      simp [initialState, CanvasElement.id] at hi
      subst hi
      simp [initialState]
  · intro ops
    induction ops with
    | nil => intro s _ h; exact h
    | cons op rest ih =>
      intro s hok h
      exact ih _ (fun o ho => hok o (List.mem_cons_of_mem _ ho))
        (applyStoreOp_IdsOK op s (hok op (List.mem_cons_self _ _)) h)

/-- C9 witness: after adding a rectangle and a point to the initial
scene, ids are pairwise distinct, and the two generated ids are fresh
and mutually distinct. -/
theorem ids_unique_and_generator_fresh_witness :
    IdsOK (runStoreOps [.addRectangle, .addPoint none] initialState) ∧
    (generatedIds [.addRectangle, .addPoint none] initialState).Nodup := by
  have h := ids_unique_and_generator_fresh
  refine ⟨h.2.1 _ initialState ?_ h.1, h.2.2.2.2 _ _⟩
  intro op hop
  simp at hop
  rcases hop with rfl | rfl <;> trivial
